import Mathlib

/-!
The page-split settings store.

A shallow embedding of `src/core/filters/page_split/Settings.cpp`
(`page_split::Settings`, its nested `BaseRecord`, `Record` and `UpdateAction`)
together with theorems about it.

* `BaseRecord` keeps the four C++ members exactly: the two values and their two
  validity flags.  A value whose flag is `false` is still stored (it is stale),
  as in the source; the accessors `params` / `layoutType` hide it.
* `std::map<ImageId, BaseRecord>` is a list of entries with strictly ascending
  keys (`PerPageRecords`); iteration order is key order, `insert` never
  overwrites, `erase` removes one node.
* The mutex is not modelled: every public operation runs to completion under
  it, so each operation is a function from the store before to the store after.
-/

namespace page_split

/-! Section: Leaf types -/

/-- The enumeration `LayoutType` used by `Settings.cpp`. -/
inductive LayoutType where
  | AUTO_LAYOUT_TYPE
  | SINGLE_PAGE_UNCUT
  | PAGE_PLUS_OFFCUT
  | TWO_PAGES
deriving DecidableEq, Repr

/-- Modelled from the spec: `PageLayout::Type` (PageLayout.h is not among the
sources); the three shapes are the three `case` labels of
`BaseRecord::hasLayoutTypeConflict`. -/
inductive PageLayoutType where
  | SINGLE_PAGE_UNCUT
  | SINGLE_PAGE_CUT
  | TWO_PAGES
deriving DecidableEq, Repr

/-- Modelled from the spec: `PageLayout` (PageLayout.h is not among the sources).
Only `type()` is read by the store; the outline and cutter lines are kept as an
uninterpreted code. -/
structure PageLayout where
  type : PageLayoutType
  geometry : Nat
deriving DecidableEq, Repr

/-- Modelled from the spec: `AutoManualMode`, the third constructor argument of
`Params`. -/
inductive AutoManualMode where
  | MODE_AUTO
  | MODE_MANUAL
deriving DecidableEq, Repr

/-- Modelled from the spec: `Params` (Params.h is not among the sources), an
opaque comparable value of which the store reads only `pageLayout().type()`.
The dependencies are kept as an uninterpreted code. -/
structure Params where
  pageLayout : PageLayout
  dependencies : Nat
  splitLineMode : AutoManualMode
deriving DecidableEq, Repr

/-- The value `Params(PageLayout(), Dependencies(), MODE_AUTO)` that the
constructors of `BaseRecord` and `UpdateAction` put in `m_params`.  It is only
ever stored under a `false` validity flag or a `DONT_TOUCH` action. -/
def Params.ctor : Params :=
  { pageLayout := { type := PageLayoutType.SINGLE_PAGE_UNCUT, geometry := 0 }
    dependencies := 0
    splitLineMode := AutoManualMode.MODE_AUTO }

/-- Modelled from the spec: `QString`, a sequence of code units compared
lexicographically. -/
abbrev QString := List Nat

/-- Modelled from the spec: `ImageId` (ImageId.h is not among the sources), the
page identity: an image path plus a sub-page index, with structural equality
and ordering. -/
structure ImageId where
  filePath : QString
  page : Int
deriving DecidableEq, Repr

/-- The pair an `ImageId` is ordered by: path first, then page. -/
def ImageId.key (i : ImageId) : Lex (QString × Int) := toLex (i.filePath, i.page)

/-- `ImageId::setFilePath`. -/
def ImageId.setFilePath (i : ImageId) (path : QString) : ImageId :=
  { i with filePath := path }

/-- Modelled from the spec: the sub-page selector of a `PageId`. -/
inductive SubPage where
  | SINGLE_PAGE
  | LEFT_PAGE
  | RIGHT_PAGE
deriving DecidableEq, Repr

/-- Modelled from the spec: `PageId` (PageId.h is not among the sources); the
store reads only `imageId()`. -/
structure PageId where
  imageId : ImageId
  subPage : SubPage
deriving DecidableEq, Repr

/-! Section: `Settings::BaseRecord` -/

/-- `Settings::BaseRecord`: the four data members. -/
structure BaseRecord where
  m_params : Params
  m_layoutType : LayoutType
  m_paramsValid : Bool
  m_layoutTypeValid : Bool
deriving DecidableEq, Repr

namespace BaseRecord

/-- `BaseRecord::BaseRecord()`. -/
def ctor : BaseRecord :=
  { m_params := Params.ctor
    m_layoutType := LayoutType.AUTO_LAYOUT_TYPE
    m_paramsValid := false
    m_layoutTypeValid := false }

/-- `BaseRecord::setParams`. -/
def setParams (r : BaseRecord) (params : Params) : BaseRecord :=
  { r with m_params := params, m_paramsValid := true }

/-- `BaseRecord::setLayoutType`. -/
def setLayoutType (r : BaseRecord) (layoutType : LayoutType) : BaseRecord :=
  { r with m_layoutType := layoutType, m_layoutTypeValid := true }

/-- `BaseRecord::hasLayoutTypeConflict(layoutType)`.  The `switch` is exhaustive
over `PageLayoutType`, so the trailing `assert`/`return false` is not reached. -/
def hasLayoutTypeConflict (r : BaseRecord) (layoutType : LayoutType) : Bool :=
  if !r.m_paramsValid then
    false
  else if layoutType = LayoutType.AUTO_LAYOUT_TYPE then
    false
  else
    match r.m_params.pageLayout.type with
    | PageLayoutType.SINGLE_PAGE_UNCUT => layoutType != LayoutType.SINGLE_PAGE_UNCUT
    | PageLayoutType.SINGLE_PAGE_CUT => layoutType != LayoutType.PAGE_PLUS_OFFCUT
    | PageLayoutType.TWO_PAGES => layoutType != LayoutType.TWO_PAGES

/-- `BaseRecord::layoutType()`: a pointer to the value, or `nullptr`. -/
def layoutType (r : BaseRecord) : Option LayoutType :=
  if r.m_layoutTypeValid then some r.m_layoutType else none

/-- `BaseRecord::params()`: a pointer to the value, or `nullptr`. -/
def params (r : BaseRecord) : Option Params :=
  if r.m_paramsValid then some r.m_params else none

/-- `BaseRecord::isNull`. -/
def isNull (r : BaseRecord) : Bool :=
  !(r.m_paramsValid || r.m_layoutTypeValid)

/-- `BaseRecord::clearParams`. -/
def clearParams (r : BaseRecord) : BaseRecord :=
  { r with m_paramsValid := false }

/-- `BaseRecord::clearLayoutType`. -/
def clearLayoutType (r : BaseRecord) : BaseRecord :=
  { r with m_layoutTypeValid := false }

end BaseRecord

/-- The spec's table (section 4.1) of the sole layout type compatible with each
params shape; written from the spec's words, to be compared with the `switch` of
`BaseRecord::hasLayoutTypeConflict`. -/
def specCompatibleLayoutType : PageLayoutType → LayoutType
  | PageLayoutType.SINGLE_PAGE_UNCUT => LayoutType.SINGLE_PAGE_UNCUT
  | PageLayoutType.SINGLE_PAGE_CUT => LayoutType.PAGE_PLUS_OFFCUT
  | PageLayoutType.TWO_PAGES => LayoutType.TWO_PAGES

/-! Section: `Settings::UpdateAction` -/

/-- The enumeration `UpdateAction::Action`. -/
inductive Action where
  | DONT_TOUCH
  | SET
  | CLEAR
deriving DecidableEq, Repr

/-- `Settings::UpdateAction`: the four data members. -/
structure UpdateAction where
  m_params : Params
  m_layoutType : LayoutType
  m_paramsAction : Action
  m_layoutTypeAction : Action
deriving DecidableEq, Repr

namespace UpdateAction

/-- `UpdateAction::UpdateAction()`. -/
def ctor : UpdateAction :=
  { m_params := Params.ctor
    m_layoutType := LayoutType.AUTO_LAYOUT_TYPE
    m_paramsAction := Action.DONT_TOUCH
    m_layoutTypeAction := Action.DONT_TOUCH }

/-- `UpdateAction::setLayoutType`. -/
def setLayoutType (a : UpdateAction) (layoutType : LayoutType) : UpdateAction :=
  { a with m_layoutType := layoutType, m_layoutTypeAction := Action.SET }

/-- `UpdateAction::clearLayoutType`. -/
def clearLayoutType (a : UpdateAction) : UpdateAction :=
  { a with m_layoutTypeAction := Action.CLEAR }

/-- `UpdateAction::setParams`. -/
def setParams (a : UpdateAction) (params : Params) : UpdateAction :=
  { a with m_params := params, m_paramsAction := Action.SET }

/-- `UpdateAction::clearParams`. -/
def clearParams (a : UpdateAction) : UpdateAction :=
  { a with m_paramsAction := Action.CLEAR }

end UpdateAction

/-! Section: `Settings::Record` -/

/-- `Settings::Record`: a `BaseRecord` plus the default layout type. -/
structure Record extends BaseRecord where
  m_defaultLayoutType : LayoutType
deriving DecidableEq, Repr

namespace Record

/-- `Record::Record(defaultLayoutType)`. -/
def ofDefault (defaultLayoutType : LayoutType) : Record :=
  { toBaseRecord := BaseRecord.ctor, m_defaultLayoutType := defaultLayoutType }

/-- `Record::Record(baseRecord, defaultLayoutType)`. -/
def ofBase (baseRecord : BaseRecord) (defaultLayoutType : LayoutType) : Record :=
  { toBaseRecord := baseRecord, m_defaultLayoutType := defaultLayoutType }

/-- `Record::combinedLayoutType`. -/
def combinedLayoutType (r : Record) : LayoutType :=
  if r.m_layoutTypeValid then r.m_layoutType else r.m_defaultLayoutType

/-- The inherited `setLayoutType`, on a `Record`. -/
def setLayoutType (r : Record) (layoutType : LayoutType) : Record :=
  { r with toBaseRecord := r.toBaseRecord.setLayoutType layoutType }

/-- The inherited `clearLayoutType`, on a `Record`. -/
def clearLayoutType (r : Record) : Record :=
  { r with toBaseRecord := r.toBaseRecord.clearLayoutType }

/-- The inherited `setParams`, on a `Record`. -/
def setParams (r : Record) (params : Params) : Record :=
  { r with toBaseRecord := r.toBaseRecord.setParams params }

/-- The inherited `clearParams`, on a `Record`. -/
def clearParams (r : Record) : Record :=
  { r with toBaseRecord := r.toBaseRecord.clearParams }

/-- The first `switch` of `Record::update`, on `m_layoutTypeAction`. -/
def updateLayoutType (r : Record) (action : UpdateAction) : Record :=
  match action.m_layoutTypeAction with
  | Action.SET => r.setLayoutType action.m_layoutType
  | Action.CLEAR => r.clearLayoutType
  | Action.DONT_TOUCH => r

/-- The second `switch` of `Record::update`, on `m_paramsAction`. -/
def updateParams (r : Record) (action : UpdateAction) : Record :=
  match action.m_paramsAction with
  | Action.SET => r.setParams action.m_params
  | Action.CLEAR => r.clearParams
  | Action.DONT_TOUCH => r

/-- `Record::update`: the layout-type switch, then the params switch. -/
def update (r : Record) (action : UpdateAction) : Record :=
  (r.updateLayoutType action).updateParams action

/-- `Record::hasLayoutTypeConflict()`. -/
def hasLayoutTypeConflict (r : Record) : Bool :=
  r.toBaseRecord.hasLayoutTypeConflict r.combinedLayoutType

/-- What a caller reads off a `Record` through its accessors: `params()`,
`layoutType()` and `combinedLayoutType()`. -/
def observed (r : Record) : Option Params × Option LayoutType × LayoutType :=
  (r.toBaseRecord.params, r.toBaseRecord.layoutType, r.combinedLayoutType)

end Record

/-! Section: `std::map<ImageId, BaseRecord>` -/

/-- One node of the map. -/
abbrev Entry := ImageId × BaseRecord

namespace StdMap

/-- `find`: the value of the node with key `k`, if there is one. -/
def find : List Entry → ImageId → Option BaseRecord
  | [], _ => none
  | (k', v) :: rest, k => if k = k' then some v else find rest k

/-- `insert(value_type(k, v))`, keys compared by `operator<` on `ImageId` (path
first, then page): a new node at its place in key order; nothing
happens when the key is already there. -/
def insert : List Entry → ImageId → BaseRecord → List Entry
  | [], k, v => [(k, v)]
  | (k', v') :: rest, k, v =>
    if k = k' then (k', v') :: rest
    else if k.key < k'.key then (k, v) :: (k', v') :: rest
    else (k', v') :: insert rest k v

/-- `erase(it)` for the iterator at key `k`: that node is removed. -/
def erase : List Entry → ImageId → List Entry
  | [], _ => []
  | (k', v') :: rest, k => if k = k' then rest else (k', v') :: erase rest k

/-- `it->second = v` for the iterator at key `k`. -/
def assign : List Entry → ImageId → BaseRecord → List Entry
  | [], _, _ => []
  | (k', v') :: rest, k, v =>
    if k = k' then (k', v) :: rest else (k', v') :: assign rest k v

/-- The loop of `Settings::setLayoutTypeForAllPages`, over the nodes in key
order: a node in conflict with `layoutType` is erased, any other has its
layout type cleared. -/
def setLayoutTypeLoop (layoutType : LayoutType) : List Entry → List Entry
  | [] => []
  | (k, r) :: rest =>
    if r.hasLayoutTypeConflict layoutType then setLayoutTypeLoop layoutType rest
    else (k, r.clearLayoutType) :: setLayoutTypeLoop layoutType rest

/-- Strictly ascending keys. -/
def Ordered (l : List Entry) : Prop :=
  l.Pairwise (fun a b => a.1.key < b.1.key)

end StdMap

/-- `Settings::PerPageRecords`, a `std::map<ImageId, BaseRecord>`: nodes in
strictly ascending key order. -/
structure PerPageRecords where
  entries : List Entry
  ordered : StdMap.Ordered entries

namespace PerPageRecords

instance : DecidableEq PerPageRecords := fun a b =>
  decidable_of_iff (a.entries = b.entries)
    ⟨fun h => by cases a; cases b; cases h; rfl, fun h => by rw [h]⟩

/-- The empty map. -/
def empty : PerPageRecords := ⟨[], List.Pairwise.nil⟩

/-- `find(k)`, as the value found or `none` for `end()`. -/
def find (m : PerPageRecords) (k : ImageId) : Option BaseRecord :=
  StdMap.find m.entries k

/-- Whether `find(k) != end()`. -/
def contains (m : PerPageRecords) (k : ImageId) : Bool :=
  (m.find k).isSome

/-- `insert(value_type(k, v))`. -/
def insert (m : PerPageRecords) (k : ImageId) (v : BaseRecord) : PerPageRecords :=
  ⟨StdMap.insert m.entries k v, by
    have main : ∀ l : List Entry, StdMap.Ordered l →
        StdMap.Ordered (StdMap.insert l k v) ∧
          ∀ x ∈ StdMap.insert l k v, x.1 = k ∨ x ∈ l := by
      intro l
      induction l with
      | nil =>
        intro _
        simp [StdMap.insert, StdMap.Ordered]
      | cons hd tl ih =>
        obtain ⟨k', v'⟩ := hd
        intro h
        have h' := List.pairwise_cons.mp h
        simp only [StdMap.insert]
        split_ifs with h1 h2
        · exact ⟨h, fun x hx => Or.inr hx⟩
        · refine ⟨List.pairwise_cons.mpr ⟨?_, h⟩, ?_⟩
          · intro x hx
            rcases List.mem_cons.mp hx with rfl | hx
            · exact h2
            · exact lt_trans h2 (h'.1 x hx)
          · intro x hx
            rcases List.mem_cons.mp hx with rfl | hx
            · exact Or.inl rfl
            · exact Or.inr hx
        · obtain ⟨ih1, ih2⟩ := ih h'.2
          have h3 : k'.key < k.key := by
            rcases lt_trichotomy k.key k'.key with h4 | h4 | h4
            · exact absurd h4 h2
            · exfalso
              apply h1
              cases k
              cases k'
              have h5 := toLex.injective h4
              simp only [Prod.mk.injEq] at h5
              simp [h5.1, h5.2]
            · exact h4
          refine ⟨List.pairwise_cons.mpr ⟨?_, ih1⟩, ?_⟩
          · intro x hx
            rcases ih2 x hx with hk | hx
            · rw [hk]
              exact h3
            · exact h'.1 x hx
          · intro x hx
            rcases List.mem_cons.mp hx with rfl | hx
            · exact Or.inr (List.mem_cons_self _ _)
            · rcases ih2 x hx with hk | hx
              · exact Or.inl hk
              · exact Or.inr (List.mem_cons_of_mem _ hx)
    exact (main m.entries m.ordered).1⟩

/-- `erase(it)` for the iterator at key `k`. -/
def erase (m : PerPageRecords) (k : ImageId) : PerPageRecords :=
  ⟨StdMap.erase m.entries k, by
    have sub : ∀ l : List Entry, (StdMap.erase l k).Sublist l := by
      intro l
      induction l with
      | nil => exact List.Sublist.slnil
      | cons hd tl ih =>
        obtain ⟨k', v'⟩ := hd
        simp only [StdMap.erase]
        split_ifs
        · exact List.sublist_cons_self _ _
        · exact ih.cons₂ _
    exact List.Pairwise.sublist (sub m.entries) m.ordered⟩

/-- `it->second = v` for the iterator at key `k`. -/
def assign (m : PerPageRecords) (k : ImageId) (v : BaseRecord) : PerPageRecords :=
  ⟨StdMap.assign m.entries k v, by
    have keys : ∀ l : List Entry,
        (StdMap.assign l k v).map Prod.fst = l.map Prod.fst := by
      intro l
      induction l with
      | nil => rfl
      | cons hd tl ih =>
        obtain ⟨k', v'⟩ := hd
        simp only [StdMap.assign]
        split_ifs
        · rfl
        · simp [ih]
    have h := m.ordered
    unfold StdMap.Ordered at h ⊢
    have e : ∀ l : List Entry, l.Pairwise (fun a b => a.1.key < b.1.key) ↔
        (l.map Prod.fst).Pairwise (fun a b => a.key < b.key) := by
      intro l
      rw [List.pairwise_map]
    rw [e, keys, ← e]
    exact h⟩

/-- The loop of `Settings::setLayoutTypeForAllPages` over the whole map. -/
def setLayoutTypeLoop (m : PerPageRecords) (layoutType : LayoutType) : PerPageRecords :=
  ⟨StdMap.setLayoutTypeLoop layoutType m.entries, by
    have main : ∀ l : List Entry, StdMap.Ordered l →
        StdMap.Ordered (StdMap.setLayoutTypeLoop layoutType l) ∧
          ∀ x ∈ StdMap.setLayoutTypeLoop layoutType l, ∃ y ∈ l, y.1 = x.1 := by
      intro l
      induction l with
      | nil =>
        intro _
        simp [StdMap.setLayoutTypeLoop, StdMap.Ordered]
      | cons hd tl ih =>
        obtain ⟨k', v'⟩ := hd
        intro h
        have h' := List.pairwise_cons.mp h
        obtain ⟨ih1, ih2⟩ := ih h'.2
        simp only [StdMap.setLayoutTypeLoop]
        split_ifs
        · refine ⟨ih1, fun x hx => ?_⟩
          obtain ⟨y, hy, hyx⟩ := ih2 x hx
          exact ⟨y, List.mem_cons_of_mem _ hy, hyx⟩
        · refine ⟨List.pairwise_cons.mpr ⟨?_, ih1⟩, ?_⟩
          · intro x hx
            obtain ⟨y, hy, hyx⟩ := ih2 x hx
            rw [← hyx]
            exact h'.1 y hy
          · intro x hx
            rcases List.mem_cons.mp hx with rfl | hx
            · exact ⟨(k', v'), List.mem_cons_self _ _, rfl⟩
            · obtain ⟨y, hy, hyx⟩ := ih2 x hx
              exact ⟨y, List.mem_cons_of_mem _ hy, hyx⟩
    exact (main m.entries m.ordered).1⟩

end PerPageRecords

/-! Section: `Settings` -/

/-- `page_split::Settings`: the per-page records and the default layout type
(the mutex is left out). -/
structure Settings where
  m_perPageRecords : PerPageRecords
  m_defaultLayoutType : LayoutType
deriving DecidableEq

namespace Settings

/-- `Settings::Settings()`: no records, default `AUTO_LAYOUT_TYPE`. -/
def ctor : Settings :=
  { m_perPageRecords := PerPageRecords.empty
    m_defaultLayoutType := LayoutType.AUTO_LAYOUT_TYPE }

/-- `Settings::clear`. -/
def clear (_s : Settings) : Settings :=
  { m_perPageRecords := PerPageRecords.empty
    m_defaultLayoutType := LayoutType.AUTO_LAYOUT_TYPE }

/-- The loop body of `Settings::performRelinking`, over the old nodes in key
order, with `newRecords` as accumulator; `substitutionPathFor` is the relinker
applied to the `RelinkablePath` of the old file path. -/
def performRelinkingLoop (substitutionPathFor : QString → QString) :
    List Entry → PerPageRecords → PerPageRecords
  | [], newRecords => newRecords
  | (k, v) :: rest, newRecords =>
    performRelinkingLoop substitutionPathFor rest
      (newRecords.insert (k.setFilePath (substitutionPathFor k.filePath)) v)

/-- `Settings::performRelinking`. -/
def performRelinking (s : Settings) (substitutionPathFor : QString → QString) : Settings :=
  { s with
    m_perPageRecords :=
      performRelinkingLoop substitutionPathFor s.m_perPageRecords.entries PerPageRecords.empty }

/-- `Settings::defaultLayoutType`. -/
def defaultLayoutType (s : Settings) : LayoutType :=
  s.m_defaultLayoutType

/-- `Settings::setLayoutTypeForAllPages`. -/
def setLayoutTypeForAllPages (s : Settings) (layoutType : LayoutType) : Settings :=
  { m_perPageRecords := s.m_perPageRecords.setLayoutTypeLoop layoutType
    m_defaultLayoutType := layoutType }

/-- `Settings::getPageRecordLocked`. -/
def getPageRecordLocked (s : Settings) (imageId : ImageId) : Record :=
  match s.m_perPageRecords.find imageId with
  | none => Record.ofDefault s.m_defaultLayoutType
  | some stored => Record.ofBase stored s.m_defaultLayoutType

/-- `Settings::getPageRecord`. -/
def getPageRecord (s : Settings) (imageId : ImageId) : Record :=
  s.getPageRecordLocked imageId

/-- `Settings::updatePageLocked(it, action)`, the iterator given as its key and
the `BaseRecord` it points to. -/
def updatePageLockedAt (s : Settings) (imageId : ImageId) (stored : BaseRecord)
    (action : UpdateAction) : Settings :=
  let record := (Record.ofBase stored s.m_defaultLayoutType).update action
  let record := if record.hasLayoutTypeConflict then record.clearParams else record
  if record.isNull then
    { s with m_perPageRecords := s.m_perPageRecords.erase imageId }
  else
    { s with m_perPageRecords := s.m_perPageRecords.assign imageId record.toBaseRecord }

/-- `Settings::updatePageLocked(imageId, action)`. -/
def updatePageLocked (s : Settings) (imageId : ImageId) (action : UpdateAction) : Settings :=
  match s.m_perPageRecords.find imageId with
  | none =>
    let record := (Record.ofDefault s.m_defaultLayoutType).update action
    let record := if record.hasLayoutTypeConflict then record.clearParams else record
    if !record.isNull then
      { s with m_perPageRecords := s.m_perPageRecords.insert imageId record.toBaseRecord }
    else
      s
  | some stored => s.updatePageLockedAt imageId stored action

/-- `Settings::updatePage`. -/
def updatePage (s : Settings) (imageId : ImageId) (action : UpdateAction) : Settings :=
  s.updatePageLocked imageId action

/-- `Settings::setLayoutTypeFor`: the `std::set<PageId>` is given as the list of
its elements in iteration order.  The argument `layoutType` is not read. -/
def setLayoutTypeFor (s : Settings) (_layoutType : LayoutType) (pages : List PageId) :
    Settings :=
  let action := UpdateAction.ctor
  pages.foldl (fun st pageId => st.updatePageLocked pageId.imageId action) s

/-- What a call of `Settings::conditionalUpdate` leaves: the store, the returned
`Record`, and the value written through the `conflict` pointer. -/
structure ConditionalUpdateResult where
  settings : Settings
  record : Record
  conflict : Bool
deriving DecidableEq

/-- `Settings::conditionalUpdate`. -/
def conditionalUpdate (s : Settings) (imageId : ImageId) (action : UpdateAction) :
    ConditionalUpdateResult :=
  match s.m_perPageRecords.find imageId with
  | none =>
    let record := (Record.ofDefault s.m_defaultLayoutType).update action
    if record.hasLayoutTypeConflict then
      { settings := s, record := Record.ofDefault s.m_defaultLayoutType, conflict := true }
    else if !record.isNull then
      { settings :=
          { s with m_perPageRecords := s.m_perPageRecords.insert imageId record.toBaseRecord }
        record := record
        conflict := false }
    else
      { settings := s, record := record, conflict := false }
  | some stored =>
    let record := (Record.ofBase stored s.m_defaultLayoutType).update action
    if record.hasLayoutTypeConflict then
      { settings := s, record := Record.ofBase stored s.m_defaultLayoutType, conflict := true }
    else if record.isNull then
      { settings := { s with m_perPageRecords := s.m_perPageRecords.erase imageId }
        record := Record.ofDefault s.m_defaultLayoutType
        conflict := false }
    else
      { settings :=
          { s with m_perPageRecords := s.m_perPageRecords.assign imageId record.toBaseRecord }
        record := record
        conflict := false }

/-- The record both overloads of `updatePageLocked` decide on, before the null
test: the action applied to the page's current `Record`, then the params
dropped when the outcome is in conflict. -/
def resolved (s : Settings) (id : ImageId) (a : UpdateAction) : Record :=
  if ((s.getPageRecord id).update a).hasLayoutTypeConflict then
    ((s.getPageRecord id).update a).clearParams
  else (s.getPageRecord id).update a

/-- Whether some node of the map holds a null `BaseRecord`. -/
def hasNullRecord (s : Settings) : Bool :=
  s.m_perPageRecords.entries.any (fun x => x.2.isNull)

/-- One call of `updatePage` or of `conditionalUpdate`, with its arguments. -/
inductive UpdateCall where
  | updatePage (imageId : ImageId) (action : UpdateAction)
  | conditionalUpdate (imageId : ImageId) (action : UpdateAction)
deriving DecidableEq

/-- The store after one such call. -/
def applyCall (s : Settings) : UpdateCall → Settings
  | UpdateCall.updatePage imageId action => s.updatePage imageId action
  | UpdateCall.conditionalUpdate imageId action => (s.conditionalUpdate imageId action).settings

/-- The store after a sequence of such calls, first call first. -/
def applyCalls (s : Settings) (calls : List UpdateCall) : Settings :=
  calls.foldl applyCall s

/-- The key `performRelinking` gives to the node stored at `k`: `k` with its file
path replaced by the substitution. -/
def relinkedId (substitutionPathFor : QString → QString) (k : ImageId) : ImageId :=
  k.setFilePath (substitutionPathFor k.filePath)

/-- One call of a public operation that changes the store, with its arguments. -/
inductive Operation where
  | clear
  | updatePage (imageId : ImageId) (action : UpdateAction)
  | conditionalUpdate (imageId : ImageId) (action : UpdateAction)
  | setLayoutTypeForAllPages (layoutType : LayoutType)
  | setLayoutTypeFor (layoutType : LayoutType) (pages : List PageId)
  | performRelinking (substitutionPathFor : QString → QString)

/-- The store after one public operation. -/
def applyOperation (s : Settings) : Operation → Settings
  | Operation.clear => s.clear
  | Operation.updatePage imageId action => s.updatePage imageId action
  | Operation.conditionalUpdate imageId action => (s.conditionalUpdate imageId action).settings
  | Operation.setLayoutTypeForAllPages layoutType => s.setLayoutTypeForAllPages layoutType
  | Operation.setLayoutTypeFor layoutType pages => s.setLayoutTypeFor layoutType pages
  | Operation.performRelinking substitutionPathFor => s.performRelinking substitutionPathFor

/-- The store after a sequence of public operations, first operation first. -/
def applyOperations (s : Settings) (ops : List Operation) : Settings :=
  ops.foldl applyOperation s

/-- A store state reachable from the freshly constructed store through the
public operations. -/
def Reachable (s : Settings) : Prop :=
  ∃ ops : List Operation, ctor.applyOperations ops = s

end Settings

/-- The record of the first node of `l`, in list order, whose key is rewritten to
`k'` by the substitution. -/
def Settings.firstRelinked (substitutionPathFor : QString → QString) :
    List Entry → ImageId → Option BaseRecord
  | [], _ => none
  | (k, v) :: rest, k' =>
    if Settings.relinkedId substitutionPathFor k = k' then some v
    else Settings.firstRelinked substitutionPathFor rest k'

/-- Whether some node of the map holds a record in conflict with its combined
layout type under the current default. -/
def Settings.hasConflictingRecord (s : Settings) : Bool :=
  s.m_perPageRecords.entries.any
    (fun x => (Record.ofBase x.2 s.m_defaultLayoutType).hasLayoutTypeConflict)

/-! Section: Facts about the map -/

namespace StdMap

theorem find_eq_none_of_lt (l : List Entry) (k : ImageId)
    (h : ∀ x ∈ l, k.key < x.1.key) : find l k = none := by
  induction l with
  | nil => rfl
  | cons hd tl ih =>
    obtain ⟨k', v'⟩ := hd
    have hk : k.key < k'.key := h (k', v') (List.mem_cons_self _ _)
    have hne : k ≠ k' := by
      intro e
      rw [e] at hk
      exact lt_irrefl _ hk
    simp only [find, if_neg hne]
    exact ih (fun x hx => h x (List.mem_cons_of_mem _ hx))

theorem find_insert_self (l : List Entry) (k : ImageId) (v : BaseRecord)
    (h : find l k = none) : find (insert l k v) k = some v := by
  induction l with
  | nil => simp [insert, find]
  | cons hd tl ih =>
    obtain ⟨k', v'⟩ := hd
    simp only [find] at h
    split_ifs at h with h1
    simp only [insert, if_neg h1]
    split_ifs with h2
    · simp [find]
    · simp only [find, if_neg h1]
      exact ih h

theorem find_insert_other (l : List Entry) (k j : ImageId) (v : BaseRecord)
    (h : j ≠ k) : find (insert l k v) j = find l j := by
  induction l with
  | nil => simp [insert, find, h]
  | cons hd tl ih =>
    obtain ⟨k', v'⟩ := hd
    simp only [insert]
    split_ifs with h1 h2
    · rfl
    · simp [find, h]
    · simp only [find, ih]

theorem find_erase_self (l : List Entry) (k : ImageId) (h : Ordered l) :
    find (erase l k) k = none := by
  induction l with
  | nil => rfl
  | cons hd tl ih =>
    obtain ⟨k', v'⟩ := hd
    have h' := List.pairwise_cons.mp h
    simp only [erase]
    split_ifs with h1
    · subst h1
      exact find_eq_none_of_lt tl k (fun x hx => h'.1 x hx)
    · simp only [find, if_neg h1]
      exact ih h'.2

theorem find_erase_other (l : List Entry) (k j : ImageId) (h : j ≠ k) :
    find (erase l k) j = find l j := by
  induction l with
  | nil => rfl
  | cons hd tl ih =>
    obtain ⟨k', v'⟩ := hd
    simp only [erase]
    split_ifs with h1
    · subst h1
      simp [find, h]
    · simp only [find, ih]

theorem find_assign_self (l : List Entry) (k : ImageId) (v : BaseRecord)
    (h : (find l k).isSome = true) : find (assign l k v) k = some v := by
  induction l with
  | nil => simp [find] at h
  | cons hd tl ih =>
    obtain ⟨k', v'⟩ := hd
    simp only [assign]
    split_ifs with h1
    · simp [find, h1]
    · simp only [find, if_neg h1] at h ⊢
      exact ih h

theorem find_assign_other (l : List Entry) (k j : ImageId) (v : BaseRecord)
    (h : j ≠ k) : find (assign l k v) j = find l j := by
  induction l with
  | nil => rfl
  | cons hd tl ih =>
    obtain ⟨k', v'⟩ := hd
    simp only [assign]
    split_ifs with h1
    · subst h1
      simp [find, h]
    · simp only [find, ih]

theorem mem_insert (l : List Entry) (k : ImageId) (v : BaseRecord) (x : Entry)
    (h : x ∈ insert l k v) : x = (k, v) ∨ x ∈ l := by
  induction l with
  | nil =>
    simp only [insert, List.mem_singleton] at h
    exact Or.inl h
  | cons hd tl ih =>
    obtain ⟨k', v'⟩ := hd
    simp only [insert] at h
    split_ifs at h with h1 h2
    · exact Or.inr h
    · rcases List.mem_cons.mp h with e | h
      · exact Or.inl e
      · exact Or.inr h
    · rcases List.mem_cons.mp h with e | h
      · exact Or.inr (by rw [e]; exact List.mem_cons_self _ _)
      · rcases ih h with e | h
        · exact Or.inl e
        · exact Or.inr (List.mem_cons_of_mem _ h)

theorem mem_erase (l : List Entry) (k : ImageId) (x : Entry)
    (h : x ∈ erase l k) : x ∈ l := by
  induction l with
  | nil => simp [erase] at h
  | cons hd tl ih =>
    obtain ⟨k', v'⟩ := hd
    simp only [erase] at h
    split_ifs at h with h1
    · exact List.mem_cons_of_mem _ h
    · rcases List.mem_cons.mp h with e | h
      · rw [e]
        exact List.mem_cons_self _ _
      · exact List.mem_cons_of_mem _ (ih h)

theorem mem_assign (l : List Entry) (k : ImageId) (v : BaseRecord) (x : Entry)
    (h : x ∈ assign l k v) : x.2 = v ∨ x ∈ l := by
  induction l with
  | nil => simp [assign] at h
  | cons hd tl ih =>
    obtain ⟨k', v'⟩ := hd
    simp only [assign] at h
    split_ifs at h with h1
    · rcases List.mem_cons.mp h with e | h
      · exact Or.inl (by rw [e])
      · exact Or.inr (List.mem_cons_of_mem _ h)
    · rcases List.mem_cons.mp h with e | h
      · exact Or.inr (by rw [e]; exact List.mem_cons_self _ _)
      · rcases ih h with e | h
        · exact Or.inl e
        · exact Or.inr (List.mem_cons_of_mem _ h)

theorem find_isSome_of_mem (l : List Entry) (x : Entry) (h : x ∈ l) :
    (find l x.1).isSome = true := by
  induction l with
  | nil => simp at h
  | cons hd tl ih =>
    obtain ⟨k', v'⟩ := hd
    simp only [find]
    split_ifs with h1
    · rfl
    · rcases List.mem_cons.mp h with e | h
      · exact absurd (by rw [e]) h1
      · exact ih h

theorem mem_of_find (l : List Entry) (k : ImageId) (v : BaseRecord)
    (h : find l k = some v) : (k, v) ∈ l := by
  induction l with
  | nil => simp [find] at h
  | cons hd tl ih =>
    obtain ⟨k', v'⟩ := hd
    simp only [find] at h
    split_ifs at h with h1
    · simp only [Option.some.injEq] at h
      rw [h1, h]
      exact List.mem_cons_self _ _
    · exact List.mem_cons_of_mem _ (ih h)

theorem find_setLayoutTypeLoop (layoutType : LayoutType) (l : List Entry) (k : ImageId)
    (h : Ordered l) :
    find (setLayoutTypeLoop layoutType l) k =
      (find l k).bind (fun r =>
        if r.hasLayoutTypeConflict layoutType then none else some r.clearLayoutType) := by
  induction l with
  | nil => rfl
  | cons hd tl ih =>
    obtain ⟨k', v'⟩ := hd
    have h' := List.pairwise_cons.mp h
    simp only [setLayoutTypeLoop, find]
    by_cases hc : v'.hasLayoutTypeConflict layoutType = true
    · simp only [if_pos hc]
      by_cases h1 : k = k'
      · subst h1
        simp only [if_true, Option.some_bind, if_pos hc]
        rw [ih h'.2, find_eq_none_of_lt tl k (fun x hx => h'.1 x hx)]
        rfl
      · simp only [if_neg h1]
        exact ih h'.2
    · simp only [if_neg hc, find]
      by_cases h1 : k = k'
      · subst h1
        simp [hc]
      · simp only [if_neg h1]
        exact ih h'.2

end StdMap

/-! Section: Facts about `Record` and `updatePage` -/

theorem Record.update_default (r : Record) (a : UpdateAction) :
    (r.update a).m_defaultLayoutType = r.m_defaultLayoutType := by
  unfold Record.update Record.updateParams Record.updateLayoutType
  cases a.m_layoutTypeAction <;> cases a.m_paramsAction <;> rfl

theorem Settings.getPageRecord_default (s : Settings) (id : ImageId) :
    (s.getPageRecord id).m_defaultLayoutType = s.m_defaultLayoutType := by
  unfold Settings.getPageRecord Settings.getPageRecordLocked
  cases s.m_perPageRecords.find id <;> rfl

theorem Settings.resolved_default (s : Settings) (id : ImageId) (a : UpdateAction) :
    (s.resolved id a).m_defaultLayoutType = s.m_defaultLayoutType := by
  unfold Settings.resolved
  split_ifs
  · show ((s.getPageRecord id).update a).m_defaultLayoutType = _
    rw [Record.update_default, Settings.getPageRecord_default]
  · rw [Record.update_default, Settings.getPageRecord_default]

theorem Settings.updatePage_default (s : Settings) (id : ImageId) (a : UpdateAction) :
    (s.updatePage id a).m_defaultLayoutType = s.m_defaultLayoutType := by
  unfold Settings.updatePage Settings.updatePageLocked Settings.updatePageLockedAt
  cases s.m_perPageRecords.find id with
  | none =>
    simp only
    split_ifs <;> rfl
  | some b =>
    simp only
    split_ifs <;> rfl

theorem Settings.find_updatePage_self (s : Settings) (id : ImageId) (a : UpdateAction) :
    (s.updatePage id a).m_perPageRecords.find id =
      if (s.resolved id a).isNull then none else some (s.resolved id a).toBaseRecord := by
  unfold Settings.updatePage Settings.updatePageLocked Settings.updatePageLockedAt
    Settings.resolved Settings.getPageRecord Settings.getPageRecordLocked
  cases hf : s.m_perPageRecords.find id with
  | none =>
    simp only
    by_cases hn : (if ((Record.ofDefault s.m_defaultLayoutType).update a).hasLayoutTypeConflict
        = true then ((Record.ofDefault s.m_defaultLayoutType).update a).clearParams
        else (Record.ofDefault s.m_defaultLayoutType).update a).isNull = true
    · simp only [hn, Bool.not_true, if_true]
      simpa using hf
    · simp only [hn, Bool.not_false, if_true, if_false]
      exact StdMap.find_insert_self _ _ _ hf
  | some b =>
    simp only
    by_cases hn : (if ((Record.ofBase b s.m_defaultLayoutType).update a).hasLayoutTypeConflict
        = true then ((Record.ofBase b s.m_defaultLayoutType).update a).clearParams
        else (Record.ofBase b s.m_defaultLayoutType).update a).isNull = true
    · simp only [hn, if_true]
      exact StdMap.find_erase_self _ _ s.m_perPageRecords.ordered
    · simp only [hn, if_false]
      refine StdMap.find_assign_self _ _ _ ?_
      have : StdMap.find s.m_perPageRecords.entries id = some b := hf
      rw [this]
      rfl

theorem Settings.getPageRecord_updatePage_self (s : Settings) (id : ImageId)
    (a : UpdateAction) :
    (s.updatePage id a).getPageRecord id =
      if (s.resolved id a).isNull then Record.ofDefault s.m_defaultLayoutType
      else s.resolved id a := by
  have hd := s.resolved_default id a
  unfold Settings.getPageRecord Settings.getPageRecordLocked
  rw [Settings.find_updatePage_self, Settings.updatePage_default]
  split_ifs with hn
  · rfl
  · simp only [Record.ofBase]
    rw [← hd]

/-! Section: Facts about `conditionalUpdate` -/

theorem Settings.conditionalUpdate_conflict (s : Settings) (id : ImageId) (a : UpdateAction) :
    (s.conditionalUpdate id a).conflict = ((s.getPageRecord id).update a).hasLayoutTypeConflict := by
  unfold Settings.conditionalUpdate Settings.getPageRecord Settings.getPageRecordLocked
  cases s.m_perPageRecords.find id with
  | none =>
    simp only
    split_ifs with h1 h2
    · exact h1.symm
    · simpa using h1
    · simpa using h1
  | some b =>
    simp only
    split_ifs with h1 h2
    · exact h1.symm
    · simpa using h1
    · simpa using h1

theorem Settings.conditionalUpdate_of_conflict (s : Settings) (id : ImageId) (a : UpdateAction)
    (h : (s.conditionalUpdate id a).conflict = true) :
    (s.conditionalUpdate id a).settings = s ∧
      (s.conditionalUpdate id a).record = s.getPageRecord id := by
  rw [Settings.conditionalUpdate_conflict] at h
  unfold Settings.conditionalUpdate
  unfold Settings.getPageRecord Settings.getPageRecordLocked at h ⊢
  cases hf : s.m_perPageRecords.find id with
  | none =>
    rw [hf] at h
    simp only at h ⊢
    rw [if_pos h]
    exact ⟨rfl, rfl⟩
  | some b =>
    rw [hf] at h
    simp only at h ⊢
    rw [if_pos h]
    exact ⟨rfl, rfl⟩

theorem Settings.resolved_of_no_conflict (s : Settings) (id : ImageId) (a : UpdateAction)
    (h : (s.conditionalUpdate id a).conflict = false) :
    s.resolved id a = (s.getPageRecord id).update a := by
  rw [Settings.conditionalUpdate_conflict] at h
  unfold Settings.resolved
  rw [h]
  rfl

theorem Settings.conditionalUpdate_of_no_conflict (s : Settings) (id : ImageId)
    (a : UpdateAction) (h : (s.conditionalUpdate id a).conflict = false) :
    (s.conditionalUpdate id a).settings = s.updatePage id a := by
  rw [Settings.conditionalUpdate_conflict] at h
  unfold Settings.getPageRecord Settings.getPageRecordLocked at h
  unfold Settings.conditionalUpdate Settings.updatePage Settings.updatePageLocked
    Settings.updatePageLockedAt
  cases hf : s.m_perPageRecords.find id with
  | none =>
    rw [hf] at h
    simp only at h ⊢
    simp only [h, Bool.false_eq_true, if_false]
    split_ifs <;> rfl
  | some b =>
    rw [hf] at h
    simp only at h ⊢
    simp only [h, Bool.false_eq_true, if_false]
    split_ifs <;> rfl

/-! Section: The claims -/

/-- C1: `updatePage(id, a)` leaves at `id` the record `r'` obtained from the
previous `getPageRecord(id)` by applying `a` field by field (SET installs the
value, CLEAR makes the field absent, DONT_TOUCH keeps it): the layout type is
that of `r'`, the params are those of `r'` unless `r'` is in conflict with its
combined layout type, in which case they are absent, and `id` is a key of the map
exactly when the resulting record is not null.  Scenario: from the fresh store,
setting params of shape two pages gives params present and combined type AUTO;
then setting layout type SINGLE_PAGE_UNCUT gives params absent and combined type
SINGLE_PAGE_UNCUT. -/
theorem C1_updatePage_applies_action :
    (∀ (s : Settings) (id : ImageId) (a : UpdateAction),
      ((s.getPageRecord id).update a).toBaseRecord.layoutType =
          (match a.m_layoutTypeAction with
            | Action.SET => some a.m_layoutType
            | Action.CLEAR => none
            | Action.DONT_TOUCH => (s.getPageRecord id).toBaseRecord.layoutType) ∧
        ((s.getPageRecord id).update a).toBaseRecord.params =
          (match a.m_paramsAction with
            | Action.SET => some a.m_params
            | Action.CLEAR => none
            | Action.DONT_TOUCH => (s.getPageRecord id).toBaseRecord.params) ∧
        ((s.updatePage id a).getPageRecord id).toBaseRecord.layoutType =
          ((s.getPageRecord id).update a).toBaseRecord.layoutType ∧
        ((s.updatePage id a).getPageRecord id).toBaseRecord.params =
          (if ((s.getPageRecord id).update a).hasLayoutTypeConflict then none
           else ((s.getPageRecord id).update a).toBaseRecord.params) ∧
        ((s.updatePage id a).m_perPageRecords.contains id = true ↔
          ((s.updatePage id a).getPageRecord id).toBaseRecord.isNull = false)) ∧
    (∀ (P1 : ImageId) (geometry dependencies : Nat) (mode : AutoManualMode),
      ((Settings.ctor.updatePage P1 (UpdateAction.ctor.setParams
          ⟨⟨PageLayoutType.TWO_PAGES, geometry⟩, dependencies, mode⟩)).getPageRecord
            P1).toBaseRecord.params
          = some ⟨⟨PageLayoutType.TWO_PAGES, geometry⟩, dependencies, mode⟩ ∧
        ((Settings.ctor.updatePage P1 (UpdateAction.ctor.setParams
          ⟨⟨PageLayoutType.TWO_PAGES, geometry⟩, dependencies, mode⟩)).getPageRecord
            P1).combinedLayoutType = LayoutType.AUTO_LAYOUT_TYPE ∧
        (((Settings.ctor.updatePage P1 (UpdateAction.ctor.setParams
          ⟨⟨PageLayoutType.TWO_PAGES, geometry⟩, dependencies, mode⟩)).updatePage P1
            (UpdateAction.ctor.setLayoutType LayoutType.SINGLE_PAGE_UNCUT)).getPageRecord
              P1).toBaseRecord.params = none ∧
        (((Settings.ctor.updatePage P1 (UpdateAction.ctor.setParams
          ⟨⟨PageLayoutType.TWO_PAGES, geometry⟩, dependencies, mode⟩)).updatePage P1
            (UpdateAction.ctor.setLayoutType LayoutType.SINGLE_PAGE_UNCUT)).getPageRecord
              P1).combinedLayoutType = LayoutType.SINGLE_PAGE_UNCUT) := by
  constructor
  · intro s id a
    have hc : (s.updatePage id a).m_perPageRecords.contains id =
        !(s.resolved id a).toBaseRecord.isNull := by
      unfold PerPageRecords.contains
      rw [Settings.find_updatePage_self]
      split_ifs with hn
      · simp [hn]
      · simp [hn]
    refine ⟨?_, ?_, ?_⟩
    · generalize s.getPageRecord id = r
      unfold Record.update Record.updateParams Record.updateLayoutType
      cases a.m_layoutTypeAction <;> cases a.m_paramsAction <;>
        simp [Record.setLayoutType, Record.clearLayoutType, Record.setParams,
          Record.clearParams, BaseRecord.setLayoutType, BaseRecord.clearLayoutType,
          BaseRecord.setParams, BaseRecord.clearParams, BaseRecord.layoutType]
    · generalize s.getPageRecord id = r
      unfold Record.update Record.updateParams Record.updateLayoutType
      cases a.m_layoutTypeAction <;> cases a.m_paramsAction <;>
        simp [Record.setLayoutType, Record.clearLayoutType, Record.setParams,
          Record.clearParams, BaseRecord.setLayoutType, BaseRecord.clearLayoutType,
          BaseRecord.setParams, BaseRecord.clearParams, BaseRecord.params]
    · rw [hc, Settings.getPageRecord_updatePage_self]
      unfold Settings.resolved
      generalize (s.getPageRecord id).update a = r
      cases hcf : r.hasLayoutTypeConflict <;> rcases r with ⟨⟨p, lt, pv, ltv⟩, d⟩ <;>
        cases pv <;> cases ltv <;>
        simp [Record.clearParams, Record.ofDefault, BaseRecord.ctor, BaseRecord.clearParams,
          BaseRecord.layoutType, BaseRecord.params, BaseRecord.isNull]
  · intro P1 geometry dependencies mode
    have h0 : Settings.ctor.getPageRecord P1 =
        Record.ofDefault LayoutType.AUTO_LAYOUT_TYPE := rfl
    have hd0 : Settings.ctor.m_defaultLayoutType = LayoutType.AUTO_LAYOUT_TYPE := rfl
    have h1 : (Settings.ctor.updatePage P1 (UpdateAction.ctor.setParams
          ⟨⟨PageLayoutType.TWO_PAGES, geometry⟩, dependencies, mode⟩)).getPageRecord P1 =
        ⟨⟨⟨⟨PageLayoutType.TWO_PAGES, geometry⟩, dependencies, mode⟩,
          LayoutType.AUTO_LAYOUT_TYPE, true, false⟩, LayoutType.AUTO_LAYOUT_TYPE⟩ := by
      rw [Settings.getPageRecord_updatePage_self, hd0]
      unfold Settings.resolved
      rw [h0]
      simp [Record.update, Record.updateLayoutType, Record.updateParams,
        Record.setParams, Record.clearParams,
        Record.hasLayoutTypeConflict, Record.combinedLayoutType, Record.ofDefault,
        BaseRecord.ctor, BaseRecord.setParams, BaseRecord.clearParams,
        BaseRecord.isNull, BaseRecord.hasLayoutTypeConflict,
        UpdateAction.ctor, UpdateAction.setParams]
    have h2 : ((Settings.ctor.updatePage P1 (UpdateAction.ctor.setParams
          ⟨⟨PageLayoutType.TWO_PAGES, geometry⟩, dependencies, mode⟩)).updatePage P1
            (UpdateAction.ctor.setLayoutType LayoutType.SINGLE_PAGE_UNCUT)).getPageRecord P1 =
        ⟨⟨⟨⟨PageLayoutType.TWO_PAGES, geometry⟩, dependencies, mode⟩,
          LayoutType.SINGLE_PAGE_UNCUT, false, true⟩, LayoutType.AUTO_LAYOUT_TYPE⟩ := by
      rw [Settings.getPageRecord_updatePage_self, Settings.updatePage_default, hd0]
      unfold Settings.resolved
      rw [h1]
      simp [Record.update, Record.updateLayoutType, Record.updateParams,
        Record.setLayoutType, Record.clearParams,
        Record.hasLayoutTypeConflict, Record.combinedLayoutType, Record.ofDefault,
        BaseRecord.setLayoutType, BaseRecord.clearParams,
        BaseRecord.isNull, BaseRecord.hasLayoutTypeConflict,
        UpdateAction.ctor, UpdateAction.setLayoutType]
    rw [h1, h2]
    simp [BaseRecord.params, Record.combinedLayoutType]

/-- C2: when `conditionalUpdate(id, a, &conflict)` reports a conflict, the store
(map and default layout type) is exactly the one before the call, the returned
`Record` is the pre-call `getPageRecord(id)`, and `getPageRecord(id)` afterwards
returns that same `Record`. -/
theorem C2_conditionalUpdate_rejection (s : Settings) (id : ImageId) (a : UpdateAction)
    (h : (s.conditionalUpdate id a).conflict = true) :
    (s.conditionalUpdate id a).settings.m_perPageRecords = s.m_perPageRecords ∧
      (s.conditionalUpdate id a).settings.m_defaultLayoutType = s.m_defaultLayoutType ∧
      (s.conditionalUpdate id a).record = s.getPageRecord id ∧
      (s.conditionalUpdate id a).settings.getPageRecord id = s.getPageRecord id := by
  have key := Settings.conditionalUpdate_of_conflict s id a h
  rw [key.1]
  exact ⟨rfl, rfl, key.2, rfl⟩

/-- Witness for C2: a page holding two-page params, asked to take layout type
SINGLE_PAGE_UNCUT. -/
theorem C2_conditionalUpdate_rejection_witness :
    ((Settings.ctor.updatePage ⟨[1], 0⟩ (UpdateAction.ctor.setParams
        ⟨⟨PageLayoutType.TWO_PAGES, 7⟩, 3, AutoManualMode.MODE_MANUAL⟩)).conditionalUpdate
      ⟨[1], 0⟩ (UpdateAction.ctor.setLayoutType LayoutType.SINGLE_PAGE_UNCUT)).settings.getPageRecord
        ⟨[1], 0⟩ =
      (Settings.ctor.updatePage ⟨[1], 0⟩ (UpdateAction.ctor.setParams
        ⟨⟨PageLayoutType.TWO_PAGES, 7⟩, 3, AutoManualMode.MODE_MANUAL⟩)).getPageRecord ⟨[1], 0⟩ :=
  (C2_conditionalUpdate_rejection
    (Settings.ctor.updatePage ⟨[1], 0⟩ (UpdateAction.ctor.setParams
        ⟨⟨PageLayoutType.TWO_PAGES, 7⟩, 3, AutoManualMode.MODE_MANUAL⟩))
    ⟨[1], 0⟩ (UpdateAction.ctor.setLayoutType LayoutType.SINGLE_PAGE_UNCUT) (by decide)).2.2.2

/-- C3: when `conditionalUpdate(id, a, &conflict)` reports no conflict, the store
it leaves is the store `updatePage(id, a)` produces from the same state, and the
returned `Record` is `getPageRecord(id)` of that store; it is all-absent when the
store then has no entry for `id`. -/
theorem C3_conditionalUpdate_success (s : Settings) (id : ImageId) (a : UpdateAction)
    (h : (s.conditionalUpdate id a).conflict = false) :
    (s.conditionalUpdate id a).settings = s.updatePage id a ∧
      (s.conditionalUpdate id a).record =
        (s.conditionalUpdate id a).settings.getPageRecord id ∧
      ((s.conditionalUpdate id a).settings.m_perPageRecords.contains id = false →
        (s.conditionalUpdate id a).record.toBaseRecord.params = none ∧
          (s.conditionalUpdate id a).record.toBaseRecord.layoutType = none) := by
  have hnc : ((s.getPageRecord id).update a).hasLayoutTypeConflict = false := by
    rw [← Settings.conditionalUpdate_conflict]
    exact h
  have hres := Settings.resolved_of_no_conflict s id a h
  have h1 := Settings.conditionalUpdate_of_no_conflict s id a h
  have h2 : (s.conditionalUpdate id a).record = (s.updatePage id a).getPageRecord id := by
    rw [Settings.getPageRecord_updatePage_self, hres]
    unfold Settings.getPageRecord Settings.getPageRecordLocked at hnc ⊢
    unfold Settings.conditionalUpdate
    cases hf : s.m_perPageRecords.find id with
    | none =>
      rw [hf] at hnc
      simp only at hnc ⊢
      simp only [hnc, Bool.false_eq_true, if_false]
      by_cases hn : ((Record.ofDefault s.m_defaultLayoutType).update a).isNull = true
      · simp only [hn, Bool.not_true, Bool.false_eq_true, if_false, if_true]
        revert hn
        rcases a with ⟨ap, alt, pa, la⟩
        cases pa <;> cases la <;>
          simp [Record.update, Record.updateLayoutType, Record.updateParams,
            Record.setLayoutType, Record.clearLayoutType, Record.setParams,
            Record.clearParams, Record.ofDefault, BaseRecord.ctor, BaseRecord.setLayoutType,
            BaseRecord.clearLayoutType, BaseRecord.setParams, BaseRecord.clearParams,
            BaseRecord.isNull]
      · simp [hn]
    | some b =>
      rw [hf] at hnc
      simp only at hnc ⊢
      simp only [hnc, Bool.false_eq_true, if_false]
      split_ifs <;> rfl
  refine ⟨h1, ?_, ?_⟩
  · rw [h2, h1]
  · intro hcn
    rw [h2]
    rw [h1] at hcn
    unfold PerPageRecords.contains at hcn
    unfold Settings.getPageRecord Settings.getPageRecordLocked
    cases hf : (s.updatePage id a).m_perPageRecords.find id with
    | none => exact ⟨rfl, rfl⟩
    | some b =>
      rw [hf] at hcn
      simp at hcn

/-- Witness for C3: setting two-page params on a page of the fresh store. -/
theorem C3_conditionalUpdate_success_witness :
    (Settings.ctor.conditionalUpdate ⟨[1], 0⟩ (UpdateAction.ctor.setParams
        ⟨⟨PageLayoutType.TWO_PAGES, 7⟩, 3, AutoManualMode.MODE_MANUAL⟩)).settings =
      Settings.ctor.updatePage ⟨[1], 0⟩ (UpdateAction.ctor.setParams
        ⟨⟨PageLayoutType.TWO_PAGES, 7⟩, 3, AutoManualMode.MODE_MANUAL⟩) :=
  (C3_conditionalUpdate_success Settings.ctor ⟨[1], 0⟩ (UpdateAction.ctor.setParams
        ⟨⟨PageLayoutType.TWO_PAGES, 7⟩, 3, AutoManualMode.MODE_MANUAL⟩) (by decide)).1

/-- C4: for a `BaseRecord` with params present and a candidate other than AUTO,
`hasLayoutTypeConflict(candidate)` is true exactly when the candidate differs
from the one layout type matching the shape of the stored params
(SINGLE_PAGE_UNCUT for single-page-uncut, PAGE_PLUS_OFFCUT for single-page-cut,
TWO_PAGES for two-pages). -/
theorem C4_conflict_iff_differs (r : BaseRecord) (p : Params) (candidate : LayoutType)
    (hp : r.params = some p) (hc : candidate ≠ LayoutType.AUTO_LAYOUT_TYPE) :
    r.hasLayoutTypeConflict candidate = true ↔
      candidate ≠ specCompatibleLayoutType p.pageLayout.type := by
  rcases r with ⟨rp, lt, pv, ltv⟩
  cases pv
  · simp [BaseRecord.params] at hp
  · simp only [BaseRecord.params, if_true, Option.some.injEq] at hp
    subst hp
    simp only [BaseRecord.hasLayoutTypeConflict, Bool.not_true, Bool.false_eq_true, if_false,
      if_neg hc]
    cases rp.pageLayout.type <;> simp [specCompatibleLayoutType]

/-- Witness for C4: params of shape single-page-cut against TWO_PAGES. -/
theorem C4_conflict_iff_differs_witness :
    (BaseRecord.ctor.setParams
        ⟨⟨PageLayoutType.SINGLE_PAGE_CUT, 2⟩, 0, AutoManualMode.MODE_AUTO⟩).hasLayoutTypeConflict
          LayoutType.TWO_PAGES = true ↔
      LayoutType.TWO_PAGES ≠ specCompatibleLayoutType PageLayoutType.SINGLE_PAGE_CUT :=
  C4_conflict_iff_differs
    (BaseRecord.ctor.setParams ⟨⟨PageLayoutType.SINGLE_PAGE_CUT, 2⟩, 0, AutoManualMode.MODE_AUTO⟩)
    ⟨⟨PageLayoutType.SINGLE_PAGE_CUT, 2⟩, 0, AutoManualMode.MODE_AUTO⟩
    LayoutType.TWO_PAGES (by decide) (by decide)

/-- C5: `hasLayoutTypeConflict(candidate)` is false whenever the record has no
params or the candidate is AUTO, whatever the layout-type field and the shape of
the (possibly stale) params are. -/
theorem C5_no_conflict_without_params_or_auto (r : BaseRecord) (candidate : LayoutType)
    (h : r.params = none ∨ candidate = LayoutType.AUTO_LAYOUT_TYPE) :
    r.hasLayoutTypeConflict candidate = false := by
  rcases r with ⟨rp, lt, pv, ltv⟩
  rcases h with h | h
  · cases pv
    · simp [BaseRecord.hasLayoutTypeConflict]
    · simp [BaseRecord.params] at h
  · subst h
    cases pv <;> simp [BaseRecord.hasLayoutTypeConflict]

/-- Witness for C5: two-page params against AUTO. -/
theorem C5_no_conflict_without_params_or_auto_witness :
    (BaseRecord.ctor.setParams
        ⟨⟨PageLayoutType.TWO_PAGES, 2⟩, 0, AutoManualMode.MODE_AUTO⟩).hasLayoutTypeConflict
          LayoutType.AUTO_LAYOUT_TYPE = false :=
  C5_no_conflict_without_params_or_auto
    (BaseRecord.ctor.setParams ⟨⟨PageLayoutType.TWO_PAGES, 2⟩, 0, AutoManualMode.MODE_AUTO⟩)
    LayoutType.AUTO_LAYOUT_TYPE (Or.inr rfl)

/-! Section: Null records -/

theorem Settings.hasNullRecord_eq_false_iff (s : Settings) :
    s.hasNullRecord = false ↔ ∀ x ∈ s.m_perPageRecords.entries, x.2.isNull = false := by
  unfold Settings.hasNullRecord
  rw [Bool.eq_false_iff]
  simp

theorem Settings.updatePage_noNull (s : Settings) (id : ImageId) (a : UpdateAction)
    (h : s.hasNullRecord = false) : (s.updatePage id a).hasNullRecord = false := by
  rw [Settings.hasNullRecord_eq_false_iff] at h ⊢
  have hres : s.resolved id a =
      if ((s.getPageRecord id).update a).hasLayoutTypeConflict then
        ((s.getPageRecord id).update a).clearParams
      else (s.getPageRecord id).update a := rfl
  unfold Settings.getPageRecord Settings.getPageRecordLocked at hres
  unfold Settings.updatePage Settings.updatePageLocked Settings.updatePageLockedAt
  cases hf : s.m_perPageRecords.find id with
  | none =>
    rw [hf] at hres
    simp only at hres ⊢
    rw [← hres]
    by_cases hn : (s.resolved id a).isNull = true
    · simp only [hn, Bool.not_true, Bool.false_eq_true, if_false]
      exact h
    · simp only [hn, Bool.not_false, if_true]
      intro x hx
      rcases StdMap.mem_insert _ _ _ _ hx with e | hx
      · rw [e]
        simpa using hn
      · exact h x hx
  | some b =>
    rw [hf] at hres
    simp only at hres ⊢
    rw [← hres]
    by_cases hn : (s.resolved id a).isNull = true
    · simp only [hn, if_true]
      intro x hx
      exact h x (StdMap.mem_erase _ _ _ hx)
    · simp only [hn, if_false]
      intro x hx
      rcases StdMap.mem_assign _ _ _ _ hx with e | hx
      · rw [e]
        simpa using hn
      · exact h x hx

theorem Settings.conditionalUpdate_noNull (s : Settings) (id : ImageId) (a : UpdateAction)
    (h : s.hasNullRecord = false) :
    (s.conditionalUpdate id a).settings.hasNullRecord = false := by
  cases hc : (s.conditionalUpdate id a).conflict with
  | true =>
    rw [(Settings.conditionalUpdate_of_conflict s id a hc).1]
    exact h
  | false =>
    rw [Settings.conditionalUpdate_of_no_conflict s id a hc]
    exact Settings.updatePage_noNull s id a h

theorem Settings.applyCalls_noNull (calls : List Settings.UpdateCall) (s : Settings)
    (h : s.hasNullRecord = false) : (s.applyCalls calls).hasNullRecord = false := by
  induction calls generalizing s with
  | nil => exact h
  | cons c rest ih =>
    unfold Settings.applyCalls
    rw [List.foldl_cons]
    apply ih
    cases c with
    | updatePage id a => exact Settings.updatePage_noNull s id a h
    | conditionalUpdate id a => exact Settings.conditionalUpdate_noNull s id a h

/-- C6: after `setLayoutTypeForAllPages(L)` the default layout type is `L`; a key
is in the new map exactly when it was in the old map with a record not in
conflict with `L`; and the record kept at a key is the old one with its layout
type cleared, so its layout type is absent and its params are unchanged.
Scenario: a page with two-page params is removed by
`setLayoutTypeForAllPages(SINGLE_PAGE_UNCUT)`, and a page without params then
reports no override and combined layout type SINGLE_PAGE_UNCUT. -/
theorem C6_setLayoutTypeForAllPages_effect :
    (∀ (s : Settings) (L : LayoutType),
      (s.setLayoutTypeForAllPages L).defaultLayoutType = L ∧
        (∀ k : ImageId,
          (s.setLayoutTypeForAllPages L).m_perPageRecords.contains k = true ↔
            ∃ r, s.m_perPageRecords.find k = some r ∧ r.hasLayoutTypeConflict L = false) ∧
        (∀ k : ImageId,
          (s.setLayoutTypeForAllPages L).m_perPageRecords.find k =
            ((s.m_perPageRecords.find k).filter
              (fun r => !r.hasLayoutTypeConflict L)).map BaseRecord.clearLayoutType)) ∧
    (∀ r : BaseRecord,
      r.clearLayoutType.layoutType = none ∧ r.clearLayoutType.params = r.params) ∧
    ((((Settings.ctor.updatePage ⟨[1], 0⟩ (UpdateAction.ctor.setParams
          ⟨⟨PageLayoutType.TWO_PAGES, 7⟩, 3, AutoManualMode.MODE_MANUAL⟩)).updatePage
        ⟨[2], 0⟩ (UpdateAction.ctor.setLayoutType LayoutType.TWO_PAGES)).setLayoutTypeForAllPages
          LayoutType.SINGLE_PAGE_UNCUT).m_perPageRecords.contains ⟨[1], 0⟩ = false ∧
      ((((Settings.ctor.updatePage ⟨[1], 0⟩ (UpdateAction.ctor.setParams
          ⟨⟨PageLayoutType.TWO_PAGES, 7⟩, 3, AutoManualMode.MODE_MANUAL⟩)).updatePage
        ⟨[2], 0⟩ (UpdateAction.ctor.setLayoutType LayoutType.TWO_PAGES)).setLayoutTypeForAllPages
          LayoutType.SINGLE_PAGE_UNCUT).getPageRecord ⟨[2], 0⟩).toBaseRecord.layoutType = none ∧
      ((((Settings.ctor.updatePage ⟨[1], 0⟩ (UpdateAction.ctor.setParams
          ⟨⟨PageLayoutType.TWO_PAGES, 7⟩, 3, AutoManualMode.MODE_MANUAL⟩)).updatePage
        ⟨[2], 0⟩ (UpdateAction.ctor.setLayoutType LayoutType.TWO_PAGES)).setLayoutTypeForAllPages
          LayoutType.SINGLE_PAGE_UNCUT).getPageRecord ⟨[2], 0⟩).combinedLayoutType =
        LayoutType.SINGLE_PAGE_UNCUT) := by
  have hfind : ∀ (s : Settings) (L : LayoutType) (k : ImageId),
      (s.setLayoutTypeForAllPages L).m_perPageRecords.find k =
        ((s.m_perPageRecords.find k).filter
          (fun r => !r.hasLayoutTypeConflict L)).map BaseRecord.clearLayoutType := by
    intro s L k
    show StdMap.find (StdMap.setLayoutTypeLoop L s.m_perPageRecords.entries) k = _
    rw [StdMap.find_setLayoutTypeLoop L _ k s.m_perPageRecords.ordered]
    unfold PerPageRecords.find
    cases StdMap.find s.m_perPageRecords.entries k with
    | none => rfl
    | some r =>
      cases hc : r.hasLayoutTypeConflict L <;> simp [Option.filter, hc]
  refine ⟨fun s L => ⟨rfl, fun k => ?_, hfind s L⟩, fun r => ⟨rfl, rfl⟩, ?_⟩
  · unfold PerPageRecords.contains
    rw [hfind]
    cases s.m_perPageRecords.find k with
    | none => simp
    | some r =>
      cases hc : r.hasLayoutTypeConflict L <;> simp [Option.filter, hc]
  · decide

/-- C7: from a store whose map holds no null record, and so from the empty
store, any finite sequence of `updatePage` and `conditionalUpdate` calls leaves a
map in which no key holds a `BaseRecord` with both params and layout type
absent. -/
theorem C7_updates_store_no_null_record (s : Settings) (calls : List Settings.UpdateCall)
    (h : s.hasNullRecord = false) :
    (s.applyCalls calls).hasNullRecord = false ∧
      (∀ (k : ImageId) (r : BaseRecord),
        (s.applyCalls calls).m_perPageRecords.find k = some r →
          ¬ (r.params = none ∧ r.layoutType = none)) ∧
      (Settings.ctor.applyCalls calls).hasNullRecord = false := by
  have h1 := Settings.applyCalls_noNull calls s h
  refine ⟨h1, ?_, Settings.applyCalls_noNull calls Settings.ctor rfl⟩
  intro k r hf
  have hm := StdMap.mem_of_find _ k r hf
  have hn := (Settings.hasNullRecord_eq_false_iff _).mp h1 _ hm
  rcases r with ⟨rp, lt, pv, ltv⟩
  revert hn
  cases pv <;> cases ltv <;> simp [BaseRecord.isNull, BaseRecord.params, BaseRecord.layoutType]

/-- Witness for C7: a page is given a layout type, which is then cleared. -/
theorem C7_updates_store_no_null_record_witness :
    (Settings.ctor.applyCalls
      [Settings.UpdateCall.updatePage ⟨[1], 0⟩
          (UpdateAction.ctor.setLayoutType LayoutType.TWO_PAGES),
        Settings.UpdateCall.conditionalUpdate ⟨[1], 0⟩
          UpdateAction.ctor.clearLayoutType]).hasNullRecord = false :=
  (C7_updates_store_no_null_record Settings.ctor
    [Settings.UpdateCall.updatePage ⟨[1], 0⟩
        (UpdateAction.ctor.setLayoutType LayoutType.TWO_PAGES),
      Settings.UpdateCall.conditionalUpdate ⟨[1], 0⟩
        UpdateAction.ctor.clearLayoutType] (by decide)).1

/-- C8, evaluated on the code: a store whose only record is a layout-type
override holds no null record, yet after `setLayoutTypeForAllPages` the key is
still in the map and its record has both fields absent. -/
theorem C8_setLayoutTypeForAllPages_keeps_null_record :
    (Settings.ctor.updatePage ⟨[1], 0⟩
        (UpdateAction.ctor.setLayoutType LayoutType.TWO_PAGES)).hasNullRecord = false ∧
      ((Settings.ctor.updatePage ⟨[1], 0⟩
        (UpdateAction.ctor.setLayoutType
          LayoutType.TWO_PAGES)).setLayoutTypeForAllPages
            LayoutType.SINGLE_PAGE_UNCUT).hasNullRecord = true ∧
      ((Settings.ctor.updatePage ⟨[1], 0⟩
        (UpdateAction.ctor.setLayoutType
          LayoutType.TWO_PAGES)).setLayoutTypeForAllPages
            LayoutType.SINGLE_PAGE_UNCUT).m_perPageRecords.contains ⟨[1], 0⟩ = true ∧
      (((Settings.ctor.updatePage ⟨[1], 0⟩
        (UpdateAction.ctor.setLayoutType
          LayoutType.TWO_PAGES)).setLayoutTypeForAllPages
            LayoutType.SINGLE_PAGE_UNCUT).m_perPageRecords.find ⟨[1], 0⟩).map
              BaseRecord.isNull = some true := by
  decide

/-- C9, evaluated on the code: in the store reached from the empty one by
`updatePage(P, SET layoutType TWO_PAGES)` and
`setLayoutTypeForAllPages(SINGLE_PAGE_UNCUT)`, the key `P` is in the map, and
`updatePage(P, UpdateAction())` with both fields DONT_TOUCH removes it: the map
changes. -/
theorem C9_dont_touch_update_removes_key :
    ((Settings.ctor.updatePage ⟨[1], 0⟩
        (UpdateAction.ctor.setLayoutType
          LayoutType.TWO_PAGES)).setLayoutTypeForAllPages
            LayoutType.SINGLE_PAGE_UNCUT).m_perPageRecords.contains ⟨[1], 0⟩ = true ∧
      (((Settings.ctor.updatePage ⟨[1], 0⟩
        (UpdateAction.ctor.setLayoutType
          LayoutType.TWO_PAGES)).setLayoutTypeForAllPages
            LayoutType.SINGLE_PAGE_UNCUT).updatePage ⟨[1], 0⟩
              UpdateAction.ctor).m_perPageRecords.contains ⟨[1], 0⟩ = false ∧
      (((Settings.ctor.updatePage ⟨[1], 0⟩
        (UpdateAction.ctor.setLayoutType
          LayoutType.TWO_PAGES)).setLayoutTypeForAllPages
            LayoutType.SINGLE_PAGE_UNCUT).updatePage ⟨[1], 0⟩
              UpdateAction.ctor).m_perPageRecords ≠
        ((Settings.ctor.updatePage ⟨[1], 0⟩
          (UpdateAction.ctor.setLayoutType
            LayoutType.TWO_PAGES)).setLayoutTypeForAllPages
              LayoutType.SINGLE_PAGE_UNCUT).m_perPageRecords := by
  decide

/-- C10: `getPageRecord(id)` returns a `Record` whose `combinedLayoutType()` is
the stored layout type of the page when the map has one for `id`, and the
current default layout type otherwise; for a page with no entry in the map the
`Record` has params absent, layout type absent and combined layout type equal to
`defaultLayoutType()`. -/
theorem C10_getPageRecord_combinedLayoutType (s : Settings) (id : ImageId) :
    (s.getPageRecord id).combinedLayoutType =
        ((s.m_perPageRecords.find id).bind BaseRecord.layoutType).getD s.defaultLayoutType ∧
      (match s.m_perPageRecords.find id with
        | some stored =>
          (s.getPageRecord id).toBaseRecord = stored
        | none =>
          (s.getPageRecord id).toBaseRecord.params = none ∧
            (s.getPageRecord id).toBaseRecord.layoutType = none ∧
            (s.getPageRecord id).combinedLayoutType = s.defaultLayoutType) := by
  unfold Settings.getPageRecord Settings.getPageRecordLocked Settings.defaultLayoutType
  cases s.m_perPageRecords.find id with
  | none => exact ⟨rfl, rfl, rfl, rfl⟩
  | some b =>
    refine ⟨?_, rfl⟩
    rcases b with ⟨rp, lt, pv, ltv⟩
    cases ltv <;> simp [Record.combinedLayoutType, Record.ofBase, BaseRecord.layoutType]

/-! Section: Extensionality of the ordered map -/

theorem ImageId.eq_of_key_eq (a b : ImageId) (h : a.key = b.key) : a = b := by
  cases a
  cases b
  have h5 := toLex.injective h
  simp only [Prod.mk.injEq] at h5
  simp [h5.1, h5.2]

theorem StdMap.entries_ext_of_find (l1 l2 : List Entry) (h1 : StdMap.Ordered l1)
    (h2 : StdMap.Ordered l2) (h : ∀ k, StdMap.find l1 k = StdMap.find l2 k) : l1 = l2 := by
  induction l1 generalizing l2 with
  | nil =>
    cases l2 with
    | nil => rfl
    | cons hd tl =>
      have := h hd.1
      simp [StdMap.find] at this
  | cons hd1 tl1 ih =>
    obtain ⟨k1, v1⟩ := hd1
    cases l2 with
    | nil =>
      have := h k1
      simp [StdMap.find] at this
    | cons hd2 tl2 =>
      obtain ⟨k2, v2⟩ := hd2
      have o1 := List.pairwise_cons.mp h1
      have o2 := List.pairwise_cons.mp h2
      have n1 : StdMap.find tl1 k1 = none := StdMap.find_eq_none_of_lt tl1 k1 o1.1
      have n2 : StdMap.find tl2 k2 = none := StdMap.find_eq_none_of_lt tl2 k2 o2.1
      have hk : k1 = k2 := by
        by_contra hne
        have hne2 : ¬ k2 = k1 := fun e => hne e.symm
        have e1 := h k1
        have e2 := h k2
        simp only [StdMap.find, if_true, if_neg hne, if_neg hne2] at e1 e2
        have m1 := StdMap.mem_of_find tl2 k1 v1 e1.symm
        have m2 := StdMap.mem_of_find tl1 k2 v2 e2
        exact lt_asymm (o1.1 _ m2) (o2.1 _ m1)
      subst hk
      have hv : v1 = v2 := by
        have e1 := h k1
        simpa [StdMap.find] using e1
      subst hv
      have ht : tl1 = tl2 := by
        apply ih tl2 o1.2 o2.2
        intro k
        by_cases hkk : k = k1
        · rw [hkk, n1, n2]
        · have e := h k
          simpa [StdMap.find, hkk] using e
      rw [ht]

theorem PerPageRecords.map_ext_of_find (m1 m2 : PerPageRecords)
    (h : ∀ k, m1.find k = m2.find k) : m1 = m2 := by
  have e : m1.entries = m2.entries :=
    StdMap.entries_ext_of_find m1.entries m2.entries m1.ordered m2.ordered h
  cases m1
  cases m2
  cases e
  rfl

theorem Settings.ext_of_find (s1 s2 : Settings)
    (hd : s1.m_defaultLayoutType = s2.m_defaultLayoutType)
    (h : ∀ k, s1.m_perPageRecords.find k = s2.m_perPageRecords.find k) : s1 = s2 := by
  have e := PerPageRecords.map_ext_of_find _ _ h
  cases s1
  cases s2
  simp only at hd e
  rw [hd, e]

theorem Settings.find_updatePage_other (s : Settings) (id k : ImageId) (a : UpdateAction)
    (h : k ≠ id) :
    (s.updatePage id a).m_perPageRecords.find k = s.m_perPageRecords.find k := by
  unfold Settings.updatePage Settings.updatePageLocked Settings.updatePageLockedAt
  cases s.m_perPageRecords.find id with
  | none =>
    simp only
    split_ifs
    · exact StdMap.find_insert_other _ _ _ _ h
    · rfl
    · exact StdMap.find_insert_other _ _ _ _ h
    · rfl
  | some b =>
    simp only
    split_ifs
    · exact StdMap.find_erase_other _ _ _ h
    · exact StdMap.find_assign_other _ _ _ _ h
    · exact StdMap.find_erase_other _ _ _ h
    · exact StdMap.find_assign_other _ _ _ _ h

theorem Settings.find_updatePage (s : Settings) (id k : ImageId) (a : UpdateAction) :
    (s.updatePage id a).m_perPageRecords.find k =
      if k = id then
        (if (s.resolved id a).isNull then none else some (s.resolved id a).toBaseRecord)
      else s.m_perPageRecords.find k := by
  split_ifs with h1 h2
  · rw [h1, Settings.find_updatePage_self, if_pos h2]
  · rw [h1, Settings.find_updatePage_self, if_neg h2]
  · exact Settings.find_updatePage_other s id k a h1

theorem Settings.getPageRecord_updatePage_other (s : Settings) (id k : ImageId)
    (a : UpdateAction) (h : k ≠ id) :
    (s.updatePage id a).getPageRecord k = s.getPageRecord k := by
  unfold Settings.getPageRecord Settings.getPageRecordLocked
  rw [Settings.find_updatePage_other s id k a h, Settings.updatePage_default]

/-- C15: after `clear()` the map is empty and the default layout type is AUTO,
so the store equals a freshly constructed one, and `getPageRecord(id)` is
all-absent with combined layout type AUTO for every page id. -/
theorem C15_clear_resets (s : Settings) :
    s.clear.m_perPageRecords.entries = [] ∧
      s.clear.defaultLayoutType = LayoutType.AUTO_LAYOUT_TYPE ∧
      s.clear = Settings.ctor ∧
      (∀ id : ImageId,
        (s.clear.getPageRecord id).toBaseRecord.params = none ∧
          (s.clear.getPageRecord id).toBaseRecord.layoutType = none ∧
          (s.clear.getPageRecord id).combinedLayoutType = LayoutType.AUTO_LAYOUT_TYPE) :=
  ⟨rfl, rfl, rfl, fun _ => ⟨rfl, rfl, rfl⟩⟩

/-- C16: `Record::update` does not depend on the order of its two switches:
the layout-type switch followed by the params switch (the order of the code)
gives the same `Record` as the params switch followed by the layout-type switch,
and each field of the result is a function of that field of the record and of
that field's action alone. -/
theorem C16_update_order_independent (r : Record) (a : UpdateAction) :
    r.update a = (r.updateLayoutType a).updateParams a ∧
      (r.updateLayoutType a).updateParams a = (r.updateParams a).updateLayoutType a ∧
      (r.update a).m_layoutTypeValid =
        (match a.m_layoutTypeAction with
          | Action.SET => true
          | Action.CLEAR => false
          | Action.DONT_TOUCH => r.m_layoutTypeValid) ∧
      (r.update a).m_layoutType =
        (match a.m_layoutTypeAction with
          | Action.SET => a.m_layoutType
          | Action.CLEAR => r.m_layoutType
          | Action.DONT_TOUCH => r.m_layoutType) ∧
      (r.update a).m_paramsValid =
        (match a.m_paramsAction with
          | Action.SET => true
          | Action.CLEAR => false
          | Action.DONT_TOUCH => r.m_paramsValid) ∧
      (r.update a).m_params =
        (match a.m_paramsAction with
          | Action.SET => a.m_params
          | Action.CLEAR => r.m_params
          | Action.DONT_TOUCH => r.m_params) ∧
      (r.update a).m_defaultLayoutType = r.m_defaultLayoutType := by
  unfold Record.update Record.updateParams Record.updateLayoutType
  cases a.m_layoutTypeAction <;> cases a.m_paramsAction <;>
    exact ⟨rfl, rfl, rfl, rfl, rfl, rfl, rfl⟩

/-- C13, evaluated on the code: on the fresh store
`setLayoutTypeFor(TWO_PAGES, {P})` leaves `P` without a layout-type override and
with combined layout type AUTO, and the store is the one before the call. -/
theorem C13_setLayoutTypeFor_sets_nothing :
    ((Settings.ctor.setLayoutTypeFor LayoutType.TWO_PAGES
        [⟨⟨[1], 0⟩, SubPage.SINGLE_PAGE⟩]).getPageRecord ⟨[1], 0⟩).toBaseRecord.layoutType
        = none ∧
      ((Settings.ctor.setLayoutTypeFor LayoutType.TWO_PAGES
        [⟨⟨[1], 0⟩, SubPage.SINGLE_PAGE⟩]).getPageRecord ⟨[1], 0⟩).combinedLayoutType
        = LayoutType.AUTO_LAYOUT_TYPE ∧
      Settings.ctor.setLayoutTypeFor LayoutType.TWO_PAGES
        [⟨⟨[1], 0⟩, SubPage.SINGLE_PAGE⟩] = Settings.ctor := by
  decide

theorem Settings.resolved_updatePage_other (s : Settings) (id other : ImageId)
    (a b : UpdateAction) (h : id ≠ other) :
    (s.updatePage other b).resolved id a = s.resolved id a := by
  unfold Settings.resolved
  rw [Settings.getPageRecord_updatePage_other s other id b h]

/-- C20: for distinct pages `id` and `other`, neither `updatePage(id, a)` nor
`conditionalUpdate(id, a, &conflict)` changes the default layout type or the map
entry of `other`; and two `updatePage` calls on distinct pages commute. -/
theorem C20_update_frame (s : Settings) (id other : ImageId) (a b : UpdateAction)
    (h : id ≠ other) :
    (s.updatePage id a).defaultLayoutType = s.defaultLayoutType ∧
      (s.updatePage id a).m_perPageRecords.find other = s.m_perPageRecords.find other ∧
      (s.conditionalUpdate id a).settings.defaultLayoutType = s.defaultLayoutType ∧
      (s.conditionalUpdate id a).settings.m_perPageRecords.find other =
        s.m_perPageRecords.find other ∧
      (s.updatePage id a).updatePage other b = (s.updatePage other b).updatePage id a := by
  have hne : other ≠ id := fun e => h e.symm
  have hc : (s.conditionalUpdate id a).settings = s ∨
      (s.conditionalUpdate id a).settings = s.updatePage id a := by
    cases hcf : (s.conditionalUpdate id a).conflict with
    | true => exact Or.inl (Settings.conditionalUpdate_of_conflict s id a hcf).1
    | false => exact Or.inr (Settings.conditionalUpdate_of_no_conflict s id a hcf)
  refine ⟨Settings.updatePage_default s id a, Settings.find_updatePage_other s id other a hne,
    ?_, ?_, ?_⟩
  · rcases hc with e | e
    · rw [e]
    · rw [e]
      exact Settings.updatePage_default s id a
  · rcases hc with e | e
    · rw [e]
    · rw [e]
      exact Settings.find_updatePage_other s id other a hne
  · apply Settings.ext_of_find
    · rw [Settings.updatePage_default, Settings.updatePage_default,
        Settings.updatePage_default, Settings.updatePage_default]
    · intro k
      rw [Settings.find_updatePage, Settings.find_updatePage, Settings.find_updatePage,
        Settings.find_updatePage, Settings.resolved_updatePage_other s id other a b h,
        Settings.resolved_updatePage_other s other id b a hne]
      by_cases h1 : k = other
      · have h2 : ¬ k = id := fun e => h (e.symm.trans h1)
        simp only [if_pos h1, if_neg h2]
      · simp only [if_neg h1]

/-- Witness for C20: two pages of the fresh store, one given params and the other
a layout type. -/
theorem C20_update_frame_witness :
    (Settings.ctor.updatePage ⟨[1], 0⟩ (UpdateAction.ctor.setParams
        ⟨⟨PageLayoutType.TWO_PAGES, 7⟩, 3, AutoManualMode.MODE_MANUAL⟩)).updatePage ⟨[2], 0⟩
          (UpdateAction.ctor.setLayoutType LayoutType.SINGLE_PAGE_UNCUT) =
      (Settings.ctor.updatePage ⟨[2], 0⟩
        (UpdateAction.ctor.setLayoutType LayoutType.SINGLE_PAGE_UNCUT)).updatePage ⟨[1], 0⟩
          (UpdateAction.ctor.setParams
            ⟨⟨PageLayoutType.TWO_PAGES, 7⟩, 3, AutoManualMode.MODE_MANUAL⟩) :=
  (C20_update_frame Settings.ctor ⟨[1], 0⟩ ⟨[2], 0⟩
    (UpdateAction.ctor.setParams ⟨⟨PageLayoutType.TWO_PAGES, 7⟩, 3, AutoManualMode.MODE_MANUAL⟩)
    (UpdateAction.ctor.setLayoutType LayoutType.SINGLE_PAGE_UNCUT) (by decide)).2.2.2.2

/-! Section: Facts about `performRelinking` -/

theorem StdMap.find_of_mem (l : List Entry) (k : ImageId) (v : BaseRecord)
    (ho : StdMap.Ordered l) (h : (k, v) ∈ l) : StdMap.find l k = some v := by
  induction l with
  | nil => simp at h
  | cons hd tl ih =>
    obtain ⟨k', v'⟩ := hd
    have o := List.pairwise_cons.mp ho
    simp only [StdMap.find]
    rcases List.mem_cons.mp h with e | hm
    · simp only [Prod.mk.injEq] at e
      rw [if_pos e.1, e.2]
    · have hlt := o.1 _ hm
      have hne : k ≠ k' := by
        intro e
        rw [e] at hlt
        exact lt_irrefl _ hlt
      rw [if_neg hne]
      exact ih o.2 hm

theorem StdMap.insert_eq_self (l : List Entry) (k : ImageId) (v b : BaseRecord)
    (ho : StdMap.Ordered l) (h : StdMap.find l k = some b) : StdMap.insert l k v = l := by
  induction l with
  | nil => simp [StdMap.find] at h
  | cons hd tl ih =>
    obtain ⟨k', v'⟩ := hd
    have o := List.pairwise_cons.mp ho
    simp only [StdMap.insert]
    split_ifs with h1 h2
    · rfl
    · exfalso
      simp only [StdMap.find, if_neg h1] at h
      exact lt_asymm h2 (o.1 _ (StdMap.mem_of_find tl k b h))
    · simp only [StdMap.find, if_neg h1] at h
      rw [ih o.2 h]

theorem PerPageRecords.find_insert (m : PerPageRecords) (k j : ImageId) (v : BaseRecord) :
    (m.insert k v).find j =
      if j = k then (match m.find k with | some b => some b | none => some v)
      else m.find j := by
  split_ifs with h
  · subst h
    cases hf : m.find j with
    | none => exact StdMap.find_insert_self _ _ _ hf
    | some b =>
      show StdMap.find (StdMap.insert m.entries j v) j = some b
      rw [StdMap.insert_eq_self m.entries j v b m.ordered hf]
      exact hf
  · exact StdMap.find_insert_other _ _ _ _ h

theorem Settings.find_performRelinkingLoop (subst : QString → QString) (l : List Entry)
    (acc : PerPageRecords) (k' : ImageId) :
    (Settings.performRelinkingLoop subst l acc).find k' =
      match acc.find k' with
      | some b => some b
      | none => Settings.firstRelinked subst l k' := by
  induction l generalizing acc with
  | nil =>
    simp only [Settings.performRelinkingLoop, Settings.firstRelinked]
    cases acc.find k' <;> rfl
  | cons hd tl ih =>
    obtain ⟨k, v⟩ := hd
    simp only [Settings.performRelinkingLoop, Settings.firstRelinked]
    rw [ih, PerPageRecords.find_insert]
    have e : k.setFilePath (subst k.filePath) = Settings.relinkedId subst k := rfl
    rw [e]
    by_cases h : k' = Settings.relinkedId subst k
    · subst h
      simp only [if_true]
      cases acc.find (Settings.relinkedId subst k) <;> rfl
    · have h2 : ¬ Settings.relinkedId subst k = k' := fun e => h e.symm
      simp only [if_neg h, if_neg h2]

theorem Settings.find_performRelinking (s : Settings) (subst : QString → QString)
    (k' : ImageId) :
    (s.performRelinking subst).m_perPageRecords.find k' =
      Settings.firstRelinked subst s.m_perPageRecords.entries k' := by
  unfold Settings.performRelinking
  simp only
  rw [Settings.find_performRelinkingLoop]
  rfl

theorem Settings.firstRelinked_of_least (subst : QString → QString) (l : List Entry)
    (k1 : ImageId) (r1 : BaseRecord) (ho : StdMap.Ordered l)
    (h1 : StdMap.find l k1 = some r1)
    (hmin : ∀ x ∈ l, Settings.relinkedId subst x.1 = Settings.relinkedId subst k1 →
      k1.key ≤ x.1.key) :
    Settings.firstRelinked subst l (Settings.relinkedId subst k1) = some r1 := by
  induction l with
  | nil => simp [StdMap.find] at h1
  | cons hd tl ih =>
    obtain ⟨k, v⟩ := hd
    have o := List.pairwise_cons.mp ho
    simp only [Settings.firstRelinked]
    by_cases hk : k1 = k
    · subst hk
      simp only [StdMap.find, if_true, Option.some.injEq] at h1
      simp [h1]
    · simp only [StdMap.find, if_neg hk] at h1
      have hlt : k.key < k1.key := o.1 _ (StdMap.mem_of_find tl k1 r1 h1)
      have hne : ¬ Settings.relinkedId subst k = Settings.relinkedId subst k1 := by
        intro e
        exact absurd hlt (not_lt.mpr (hmin (k, v) (List.mem_cons_self _ _) e))
      rw [if_neg hne]
      exact ih o.2 h1 (fun x hx => hmin x (List.mem_cons_of_mem _ hx))

theorem Settings.firstRelinked_some (subst : QString → QString) (l : List Entry)
    (k' : ImageId) (r : BaseRecord) (h : Settings.firstRelinked subst l k' = some r) :
    ∃ k, (k, r) ∈ l ∧ Settings.relinkedId subst k = k' := by
  induction l with
  | nil => simp [Settings.firstRelinked] at h
  | cons hd tl ih =>
    obtain ⟨k, v⟩ := hd
    simp only [Settings.firstRelinked] at h
    split_ifs at h with h1
    · simp only [Option.some.injEq] at h
      exact ⟨k, by rw [h]; exact List.mem_cons_self _ _, h1⟩
    · obtain ⟨k2, hm, hk⟩ := ih h
      exact ⟨k2, List.mem_cons_of_mem _ hm, hk⟩

theorem Settings.firstRelinked_id (subst : QString → QString) (hid : ∀ p, subst p = p)
    (l : List Entry) (k' : ImageId) :
    Settings.firstRelinked subst l k' = StdMap.find l k' := by
  induction l with
  | nil => rfl
  | cons hd tl ih =>
    obtain ⟨k, v⟩ := hd
    have e : Settings.relinkedId subst k = k := by
      unfold Settings.relinkedId ImageId.setFilePath
      rw [hid]
    simp only [Settings.firstRelinked, StdMap.find, e, ih]
    by_cases h : k = k'
    · simp [h]
    · have h2 : ¬ k' = k := fun e => h e.symm
      simp [h, h2]

theorem StdMap.length_insert_le (l : List Entry) (k : ImageId) (v : BaseRecord) :
    (StdMap.insert l k v).length ≤ l.length + 1 := by
  induction l with
  | nil => simp [StdMap.insert]
  | cons hd tl ih =>
    obtain ⟨k', v'⟩ := hd
    simp only [StdMap.insert]
    split_ifs
    · simp
    · simp
    · simp only [List.length_cons]
      omega

theorem Settings.length_performRelinkingLoop_le (subst : QString → QString) (l : List Entry)
    (acc : PerPageRecords) :
    (Settings.performRelinkingLoop subst l acc).entries.length ≤
      acc.entries.length + l.length := by
  induction l generalizing acc with
  | nil => simp [Settings.performRelinkingLoop]
  | cons hd tl ih =>
    obtain ⟨k, v⟩ := hd
    simp only [Settings.performRelinkingLoop, List.length_cons]
    have h1 := ih (acc.insert (k.setFilePath (subst k.filePath)) v)
    have h2 : (acc.insert (k.setFilePath (subst k.filePath)) v).entries.length ≤
        acc.entries.length + 1 := StdMap.length_insert_le _ _ _
    omega

theorem Settings.length_performRelinkingLoop_lt (subst : QString → QString) (l : List Entry)
    (acc : PerPageRecords)
    (h : ∃ x ∈ l, (acc.find (Settings.relinkedId subst x.1)).isSome = true) :
    (Settings.performRelinkingLoop subst l acc).entries.length <
      acc.entries.length + l.length := by
  induction l generalizing acc with
  | nil =>
    obtain ⟨x, hx, _⟩ := h
    simp at hx
  | cons hd tl ih =>
    obtain ⟨k, v⟩ := hd
    obtain ⟨x, hx, hf⟩ := h
    simp only [Settings.performRelinkingLoop, List.length_cons]
    have e : k.setFilePath (subst k.filePath) = Settings.relinkedId subst k := rfl
    rw [e]
    rcases List.mem_cons.mp hx with hxe | hxt
    · subst hxe
      cases hb : acc.find (Settings.relinkedId subst k) with
      | none => simp [hb] at hf
      | some b =>
        have hs : acc.insert (Settings.relinkedId subst k) v = acc := by
          apply PerPageRecords.map_ext_of_find
          intro j
          rw [PerPageRecords.find_insert]
          split_ifs with hj
          · rw [hj, hb]
          · rfl
        rw [hs]
        have := Settings.length_performRelinkingLoop_le subst tl acc
        omega
    · have h1 := ih (acc.insert (Settings.relinkedId subst k) v) ⟨x, hxt, by
        rw [PerPageRecords.find_insert]
        split_ifs with hj
        · cases acc.find (Settings.relinkedId subst k) <;> rfl
        · exact hf⟩
      have h2 : (acc.insert (Settings.relinkedId subst k) v).entries.length ≤
          acc.entries.length + 1 := StdMap.length_insert_le _ _ _
      omega

theorem Settings.length_performRelinkingLoop_collision (subst : QString → QString)
    (l : List Entry) (acc : PerPageRecords)
    (h : ∃ x ∈ l, ∃ y ∈ l, x.1 ≠ y.1 ∧
      Settings.relinkedId subst x.1 = Settings.relinkedId subst y.1) :
    (Settings.performRelinkingLoop subst l acc).entries.length <
      acc.entries.length + l.length := by
  induction l generalizing acc with
  | nil =>
    obtain ⟨x, hx, _⟩ := h
    simp at hx
  | cons hd tl ih =>
    obtain ⟨k, v⟩ := hd
    obtain ⟨x, hx, y, hy, hne, hcol⟩ := h
    have e : k.setFilePath (subst k.filePath) = Settings.relinkedId subst k := rfl
    have h2 : (acc.insert (Settings.relinkedId subst k) v).entries.length ≤
        acc.entries.length + 1 := StdMap.length_insert_le _ _ _
    have hself : ((acc.insert (Settings.relinkedId subst k) v).find
        (Settings.relinkedId subst k)).isSome = true := by
      rw [PerPageRecords.find_insert, if_pos rfl]
      cases acc.find (Settings.relinkedId subst k) <;> rfl
    simp only [Settings.performRelinkingLoop, List.length_cons]
    rw [e]
    rcases List.mem_cons.mp hx with hxe | hxt
    · rcases List.mem_cons.mp hy with hye | hyt
      · exfalso
        apply hne
        rw [hxe, hye]
      · subst hxe
        have h1 := Settings.length_performRelinkingLoop_lt subst tl
          (acc.insert (Settings.relinkedId subst k) v) ⟨y, hyt, by
            rw [← hcol]
            exact hself⟩
        omega
    · rcases List.mem_cons.mp hy with hye | hyt
      · subst hye
        have h1 := Settings.length_performRelinkingLoop_lt subst tl
          (acc.insert (Settings.relinkedId subst k) v) ⟨x, hxt, by
            rw [hcol]
            exact hself⟩
        omega
      · have h1 := ih (acc.insert (Settings.relinkedId subst k) v)
          ⟨x, hxt, y, hyt, hne, hcol⟩
        omega

theorem StdMap.filter_key_eq_nil (l : List Entry) (k : ImageId)
    (h : ∀ x ∈ l, k.key < x.1.key) : l.filter (fun x => decide (x.1 = k)) = [] := by
  rw [List.filter_eq_nil_iff]
  intro x hx
  have hlt := h x hx
  simp only [decide_eq_true_eq]
  intro e
  rw [e] at hlt
  exact lt_irrefl _ hlt

theorem StdMap.filter_key_length (l : List Entry) (k : ImageId) (v : BaseRecord)
    (ho : StdMap.Ordered l) (h : StdMap.find l k = some v) :
    (l.filter (fun x => decide (x.1 = k))).length = 1 := by
  induction l with
  | nil => simp [StdMap.find] at h
  | cons hd tl ih =>
    obtain ⟨k', v'⟩ := hd
    have o := List.pairwise_cons.mp ho
    by_cases hk : k = k'
    · subst hk
      rw [List.filter_cons_of_pos (by simp), StdMap.filter_key_eq_nil tl k o.1]
      rfl
    · simp only [StdMap.find, if_neg hk] at h
      have hk2 : ¬ k' = k := fun e => hk e.symm
      rw [List.filter_cons_of_neg (by simpa using hk2)]
      exact ih o.2 h

/-- C11: when the substitution rewrites no two distinct stored keys to the same
key, `performRelinking` leaves exactly the image of the old map.  For each old
entry `(k, r)` the new map holds `r`, unaltered, at the key whose file path is
the substitution of the file path of `k` and whose page is the page of `k`; the
new map holds `r` at a key `k'` only if some old key holding `r` has the page of
`k'` and its path substituted to the path of `k'`; the default layout type is
unchanged.  In particular, when the substitution takes the path of `K1` to the
path of `K2` (same page), leaves every other path alone, and `K2` was not a key
before, the record formerly at `K1` is found at `K2` and `K1` is no longer a
key. -/
theorem C11_performRelinking_image (s : Settings) (subst : QString → QString)
    (hinj : ∀ x ∈ s.m_perPageRecords.entries, ∀ y ∈ s.m_perPageRecords.entries,
      ({ filePath := subst x.1.filePath, page := x.1.page } : ImageId) =
        { filePath := subst y.1.filePath, page := y.1.page } → x.1 = y.1) :
    (∀ (k : ImageId) (r : BaseRecord), s.m_perPageRecords.find k = some r →
        (s.performRelinking subst).m_perPageRecords.find
          { filePath := subst k.filePath, page := k.page } = some r) ∧
      (∀ (k' : ImageId) (r : BaseRecord),
        (s.performRelinking subst).m_perPageRecords.find k' = some r ↔
          ∃ k, s.m_perPageRecords.find k = some r ∧
            k'.filePath = subst k.filePath ∧ k'.page = k.page) ∧
      (s.performRelinking subst).defaultLayoutType = s.defaultLayoutType ∧
      (∀ (K1 K2 : ImageId) (r : BaseRecord), s.m_perPageRecords.find K1 = some r →
        K2.filePath = subst K1.filePath → K2.page = K1.page →
        (∀ q, q ≠ K1.filePath → subst q = q) →
        s.m_perPageRecords.contains K2 = false →
        (s.performRelinking subst).m_perPageRecords.find K2 = some r ∧
          (s.performRelinking subst).m_perPageRecords.contains K1 = false) := by
  have hrel : ∀ k : ImageId, Settings.relinkedId subst k =
      { filePath := subst k.filePath, page := k.page } := fun _ => rfl
  have hfwd : ∀ (k : ImageId) (r : BaseRecord), s.m_perPageRecords.find k = some r →
      (s.performRelinking subst).m_perPageRecords.find
        { filePath := subst k.filePath, page := k.page } = some r := by
    intro k r hf
    rw [← hrel k, Settings.find_performRelinking]
    apply Settings.firstRelinked_of_least subst _ k r s.m_perPageRecords.ordered hf
    intro x hx hr
    have hm := StdMap.mem_of_find _ k r hf
    rw [hrel, hrel] at hr
    rw [hinj x hx (k, r) hm hr]
  have hbwd : ∀ (k' : ImageId) (r : BaseRecord),
      (s.performRelinking subst).m_perPageRecords.find k' = some r →
        ∃ k, s.m_perPageRecords.find k = some r ∧
          k'.filePath = subst k.filePath ∧ k'.page = k.page := by
    intro k' r hf
    rw [Settings.find_performRelinking] at hf
    obtain ⟨k, hm, hk⟩ := Settings.firstRelinked_some subst _ k' r hf
    rw [hrel] at hk
    refine ⟨k, StdMap.find_of_mem _ k r s.m_perPageRecords.ordered hm, ?_, ?_⟩
    · rw [← hk]
    · rw [← hk]
  refine ⟨hfwd, fun k' r => ⟨hbwd k' r, ?_⟩, rfl, ?_⟩
  · rintro ⟨k, hf, hp, hg⟩
    have e : k' = { filePath := subst k.filePath, page := k.page } := by
      cases k'
      simp only at hp hg
      rw [hp, hg]
    rw [e]
    exact hfwd k r hf
  · intro K1 K2 r hf hpath hpage hother hfresh
    have e2 : K2 = { filePath := subst K1.filePath, page := K1.page } := by
      cases K2
      simp only at hpath hpage
      rw [hpath, hpage]
    refine ⟨by rw [e2]; exact hfwd K1 r hf, ?_⟩
    unfold PerPageRecords.contains
    cases hc : (s.performRelinking subst).m_perPageRecords.find K1 with
    | none => rfl
    | some r2 =>
      exfalso
      obtain ⟨k, hk, hp1, hg1⟩ := hbwd K1 r2 hc
      by_cases hp : k.filePath = K1.filePath
      · have e : k = K1 := by
          cases k
          cases K1
          simp only at hp hg1
          rw [hp, hg1]
        rw [e] at hp1
        have e3 : K2 = K1 := by
          rw [e2]
          cases K1
          simp only at hp1
          simp only [ImageId.mk.injEq, and_true]
          exact hp1.symm
        rw [e3] at hfresh
        unfold PerPageRecords.contains at hfresh
        rw [hf] at hfresh
        simp at hfresh
      · have h2 := hother k.filePath hp
        rw [h2] at hp1
        exact hp hp1.symm

/-- Witness for C11: the two stored pages of the file with path `[1]` are moved to
the path `[5]`; the record of page 0 is then found under path `[5]`, page 0, and
the old key is gone. -/
theorem C11_performRelinking_image_witness :
    (((Settings.ctor.updatePage ⟨[1], 0⟩
        (UpdateAction.ctor.setLayoutType LayoutType.TWO_PAGES)).updatePage ⟨[1], 1⟩
        (UpdateAction.ctor.setLayoutType LayoutType.SINGLE_PAGE_UNCUT)).performRelinking
          (fun p => if p = [1] then [5] else p)).m_perPageRecords.find ⟨[5], 0⟩ =
        some (BaseRecord.ctor.setLayoutType LayoutType.TWO_PAGES) ∧
      (((Settings.ctor.updatePage ⟨[1], 0⟩
        (UpdateAction.ctor.setLayoutType LayoutType.TWO_PAGES)).updatePage ⟨[1], 1⟩
        (UpdateAction.ctor.setLayoutType LayoutType.SINGLE_PAGE_UNCUT)).performRelinking
          (fun p => if p = [1] then [5] else p)).m_perPageRecords.contains ⟨[1], 0⟩ = false :=
  (C11_performRelinking_image
    ((Settings.ctor.updatePage ⟨[1], 0⟩
        (UpdateAction.ctor.setLayoutType LayoutType.TWO_PAGES)).updatePage ⟨[1], 1⟩
        (UpdateAction.ctor.setLayoutType LayoutType.SINGLE_PAGE_UNCUT))
    (fun p => if p = [1] then [5] else p) (by decide)).2.2.2
      ⟨[1], 0⟩ ⟨[5], 0⟩ (BaseRecord.ctor.setLayoutType LayoutType.TWO_PAGES)
      (by decide) (by decide) (by decide) (fun q hq => if_neg hq) (by decide)

/-- C12: `performRelinking` with a substitution that returns every path unchanged
leaves the store unchanged: the same keys, the same `BaseRecord` at each key, the
same default layout type. -/
theorem C12_performRelinking_identity (s : Settings) (subst : QString → QString)
    (hid : ∀ p, subst p = p) :
    s.performRelinking subst = s ∧
      (s.performRelinking subst).m_perPageRecords.entries = s.m_perPageRecords.entries ∧
      (s.performRelinking subst).defaultLayoutType = s.defaultLayoutType := by
  have h : s.performRelinking subst = s := by
    apply Settings.ext_of_find
    · rfl
    · intro k
      rw [Settings.find_performRelinking, Settings.firstRelinked_id subst hid]
      rfl
  rw [h]
  exact ⟨rfl, rfl, rfl⟩

/-- Witness for C12: the identity substitution on a store with two records. -/
theorem C12_performRelinking_identity_witness :
    ((Settings.ctor.updatePage ⟨[2], 0⟩
        (UpdateAction.ctor.setLayoutType LayoutType.TWO_PAGES)).updatePage ⟨[1], 1⟩
        (UpdateAction.ctor.setLayoutType LayoutType.SINGLE_PAGE_UNCUT)).performRelinking
          (fun p => p) =
      (Settings.ctor.updatePage ⟨[2], 0⟩
        (UpdateAction.ctor.setLayoutType LayoutType.TWO_PAGES)).updatePage ⟨[1], 1⟩
        (UpdateAction.ctor.setLayoutType LayoutType.SINGLE_PAGE_UNCUT) :=
  (C12_performRelinking_identity
    ((Settings.ctor.updatePage ⟨[2], 0⟩
        (UpdateAction.ctor.setLayoutType LayoutType.TWO_PAGES)).updatePage ⟨[1], 1⟩
        (UpdateAction.ctor.setLayoutType LayoutType.SINGLE_PAGE_UNCUT))
    (fun p => p) (fun _ => rfl)).1

/-- C17: when two distinct stored keys `k1` and `k2` are rewritten to the same
new key, and `k1` is the first in key order of the stored keys rewritten to it,
then after `performRelinking` the new map holds exactly one entry at that key,
its record is the unaltered record of `k1` (so looking up the rewritten `k2`
gives the record of `k1`, not that of `k2` and not a merge), the map has fewer
entries than before, and the default layout type is unchanged. -/
theorem C17_performRelinking_collision (s : Settings) (subst : QString → QString)
    (k1 k2 : ImageId) (r1 r2 : BaseRecord)
    (h1 : s.m_perPageRecords.find k1 = some r1)
    (h2 : s.m_perPageRecords.find k2 = some r2)
    (hne : k1 ≠ k2)
    (hcol : Settings.relinkedId subst k1 = Settings.relinkedId subst k2)
    (hmin : ∀ (k : ImageId) (r : BaseRecord), s.m_perPageRecords.find k = some r →
      Settings.relinkedId subst k = Settings.relinkedId subst k1 → k1.key ≤ k.key) :
    (s.performRelinking subst).m_perPageRecords.find (Settings.relinkedId subst k1)
        = some r1 ∧
      (s.performRelinking subst).m_perPageRecords.find (Settings.relinkedId subst k2)
        = some r1 ∧
      ((s.performRelinking subst).m_perPageRecords.entries.filter
        (fun x => decide (x.1 = Settings.relinkedId subst k1))).length = 1 ∧
      (s.performRelinking subst).m_perPageRecords.entries.length <
        s.m_perPageRecords.entries.length ∧
      (s.performRelinking subst).defaultLayoutType = s.defaultLayoutType := by
  have hf : (s.performRelinking subst).m_perPageRecords.find (Settings.relinkedId subst k1)
      = some r1 := by
    rw [Settings.find_performRelinking]
    apply Settings.firstRelinked_of_least subst _ k1 r1 s.m_perPageRecords.ordered h1
    intro x hx hr
    exact hmin x.1 x.2 (StdMap.find_of_mem _ x.1 x.2 s.m_perPageRecords.ordered hx) hr
  refine ⟨hf, ?_, ?_, ?_, rfl⟩
  · rw [← hcol]
    exact hf
  · exact StdMap.filter_key_length _ _ r1 (s.performRelinking subst).m_perPageRecords.ordered hf
  · have hl := Settings.length_performRelinkingLoop_collision subst
      s.m_perPageRecords.entries PerPageRecords.empty
      ⟨(k1, r1), StdMap.mem_of_find _ k1 r1 h1, (k2, r2), StdMap.mem_of_find _ k2 r2 h2,
        hne, hcol⟩
    have he : PerPageRecords.empty.entries.length = 0 := rfl
    rw [he, Nat.zero_add] at hl
    exact hl

/-- Witness for C17: two files, each with a record for page 0, both moved to the
same path. -/
theorem C17_performRelinking_collision_witness :
    (((Settings.ctor.updatePage ⟨[1], 0⟩
        (UpdateAction.ctor.setLayoutType LayoutType.TWO_PAGES)).updatePage ⟨[2], 0⟩
        (UpdateAction.ctor.setLayoutType LayoutType.SINGLE_PAGE_UNCUT)).performRelinking
          (fun _ => [9])).m_perPageRecords.find ⟨[9], 0⟩ =
      some (BaseRecord.ctor.setLayoutType LayoutType.TWO_PAGES) :=
  (C17_performRelinking_collision
    ((Settings.ctor.updatePage ⟨[1], 0⟩
        (UpdateAction.ctor.setLayoutType LayoutType.TWO_PAGES)).updatePage ⟨[2], 0⟩
        (UpdateAction.ctor.setLayoutType LayoutType.SINGLE_PAGE_UNCUT))
    (fun _ => [9]) ⟨[1], 0⟩ ⟨[2], 0⟩
    (BaseRecord.ctor.setLayoutType LayoutType.TWO_PAGES)
    (BaseRecord.ctor.setLayoutType LayoutType.SINGLE_PAGE_UNCUT)
    (by decide) (by decide) (by decide) (by decide)
    (by
      intro k r hk _
      have hm := StdMap.mem_of_find _ k r hk
      have hall : ∀ x ∈ ((Settings.ctor.updatePage ⟨[1], 0⟩
          (UpdateAction.ctor.setLayoutType LayoutType.TWO_PAGES)).updatePage ⟨[2], 0⟩
          (UpdateAction.ctor.setLayoutType
            LayoutType.SINGLE_PAGE_UNCUT)).m_perPageRecords.entries,
          (⟨[1], 0⟩ : ImageId).key ≤ x.1.key := by decide
      exact hall (k, r) hm)).1

/-! Section: No stored record is in conflict -/

theorem Settings.hasConflictingRecord_eq_false_iff (s : Settings) :
    s.hasConflictingRecord = false ↔
      ∀ x ∈ s.m_perPageRecords.entries,
        (Record.ofBase x.2 s.m_defaultLayoutType).hasLayoutTypeConflict = false := by
  unfold Settings.hasConflictingRecord
  rw [Bool.eq_false_iff]
  simp

theorem Record.conflict_dropped_no_conflict (r : Record) :
    (if r.hasLayoutTypeConflict then r.clearParams else r).hasLayoutTypeConflict = false := by
  cases hc : r.hasLayoutTypeConflict with
  | false => simpa using hc
  | true =>
    simp only [if_true]
    simp [Record.hasLayoutTypeConflict, Record.clearParams, BaseRecord.clearParams,
      BaseRecord.hasLayoutTypeConflict]

theorem Settings.resolved_no_conflict (s : Settings) (id : ImageId) (a : UpdateAction) :
    (s.resolved id a).hasLayoutTypeConflict = false :=
  Record.conflict_dropped_no_conflict _

theorem Settings.ofBase_resolved (s : Settings) (id : ImageId) (a : UpdateAction) :
    Record.ofBase (s.resolved id a).toBaseRecord s.m_defaultLayoutType = s.resolved id a := by
  have hd := s.resolved_default id a
  simp only [Record.ofBase]
  rw [← hd]

theorem Settings.mem_updatePage (s : Settings) (id : ImageId) (a : UpdateAction) (x : Entry)
    (hx : x ∈ (s.updatePage id a).m_perPageRecords.entries) :
    x ∈ s.m_perPageRecords.entries ∨ x.2 = (s.resolved id a).toBaseRecord := by
  have hres : s.resolved id a =
      if ((s.getPageRecord id).update a).hasLayoutTypeConflict then
        ((s.getPageRecord id).update a).clearParams
      else (s.getPageRecord id).update a := rfl
  unfold Settings.getPageRecord Settings.getPageRecordLocked at hres
  unfold Settings.updatePage Settings.updatePageLocked Settings.updatePageLockedAt at hx
  cases hf : s.m_perPageRecords.find id with
  | none =>
    rw [hf] at hres hx
    simp only at hres hx
    rw [← hres] at hx
    by_cases hn : (s.resolved id a).isNull = true
    · simp only [hn, Bool.not_true, Bool.false_eq_true, if_false] at hx
      exact Or.inl hx
    · simp only [hn, Bool.not_false, if_true] at hx
      rcases StdMap.mem_insert _ _ _ _ hx with e | hx
      · exact Or.inr (by rw [e])
      · exact Or.inl hx
  | some b =>
    rw [hf] at hres hx
    simp only at hres hx
    rw [← hres] at hx
    by_cases hn : (s.resolved id a).isNull = true
    · simp only [hn, if_true] at hx
      exact Or.inl (StdMap.mem_erase _ _ _ hx)
    · simp only [hn, if_false] at hx
      rcases StdMap.mem_assign _ _ _ _ hx with e | hx
      · exact Or.inr e
      · exact Or.inl hx

theorem Settings.updatePage_noConflict (s : Settings) (id : ImageId) (a : UpdateAction)
    (h : s.hasConflictingRecord = false) :
    (s.updatePage id a).hasConflictingRecord = false := by
  rw [Settings.hasConflictingRecord_eq_false_iff] at h ⊢
  intro x hx
  rw [Settings.updatePage_default]
  rcases Settings.mem_updatePage s id a x hx with hm | e
  · exact h x hm
  · rw [e, Settings.ofBase_resolved]
    exact Settings.resolved_no_conflict s id a

theorem Settings.conditionalUpdate_noConflict (s : Settings) (id : ImageId)
    (a : UpdateAction) (h : s.hasConflictingRecord = false) :
    (s.conditionalUpdate id a).settings.hasConflictingRecord = false := by
  cases hc : (s.conditionalUpdate id a).conflict with
  | true =>
    rw [(Settings.conditionalUpdate_of_conflict s id a hc).1]
    exact h
  | false =>
    rw [Settings.conditionalUpdate_of_no_conflict s id a hc]
    exact Settings.updatePage_noConflict s id a h

theorem StdMap.mem_setLayoutTypeLoop (L : LayoutType) (l : List Entry) (x : Entry)
    (hx : x ∈ StdMap.setLayoutTypeLoop L l) :
    ∃ r, (x.1, r) ∈ l ∧ r.hasLayoutTypeConflict L = false ∧ x.2 = r.clearLayoutType := by
  induction l with
  | nil => simp [StdMap.setLayoutTypeLoop] at hx
  | cons hd tl ih =>
    obtain ⟨k, v⟩ := hd
    simp only [StdMap.setLayoutTypeLoop] at hx
    split_ifs at hx with hc
    · obtain ⟨r, hm, h1, h2⟩ := ih hx
      exact ⟨r, List.mem_cons_of_mem _ hm, h1, h2⟩
    · rcases List.mem_cons.mp hx with e | hx
      · refine ⟨v, ?_, by simpa using hc, by rw [e]⟩
        rw [e]
        exact List.mem_cons_self _ _
      · obtain ⟨r, hm, h1, h2⟩ := ih hx
        exact ⟨r, List.mem_cons_of_mem _ hm, h1, h2⟩

theorem Settings.setLayoutTypeForAllPages_noConflict (s : Settings) (L : LayoutType) :
    (s.setLayoutTypeForAllPages L).hasConflictingRecord = false := by
  rw [Settings.hasConflictingRecord_eq_false_iff]
  intro x hx
  obtain ⟨r, _, h1, h2⟩ := StdMap.mem_setLayoutTypeLoop L _ x hx
  rw [h2]
  show (r.clearLayoutType).hasLayoutTypeConflict
    (Record.ofBase r.clearLayoutType L).combinedLayoutType = false
  have e : (Record.ofBase r.clearLayoutType L).combinedLayoutType = L := by
    simp [Record.combinedLayoutType, Record.ofBase, BaseRecord.clearLayoutType]
  rw [e]
  exact h1

theorem Settings.setLayoutTypeFor_noConflict (pages : List PageId) (s : Settings)
    (L : LayoutType) (h : s.hasConflictingRecord = false) :
    (s.setLayoutTypeFor L pages).hasConflictingRecord = false := by
  induction pages generalizing s with
  | nil => exact h
  | cons p rest ih =>
    unfold Settings.setLayoutTypeFor
    simp only [List.foldl_cons]
    exact ih (s.updatePageLocked p.imageId UpdateAction.ctor)
      (Settings.updatePage_noConflict s p.imageId UpdateAction.ctor h)

theorem Settings.mem_performRelinkingLoop (subst : QString → QString) (l : List Entry)
    (acc : PerPageRecords) (x : Entry)
    (hx : x ∈ (Settings.performRelinkingLoop subst l acc).entries) :
    x ∈ acc.entries ∨ ∃ y ∈ l, x.2 = y.2 := by
  induction l generalizing acc with
  | nil => exact Or.inl hx
  | cons hd tl ih =>
    obtain ⟨k, v⟩ := hd
    simp only [Settings.performRelinkingLoop] at hx
    rcases ih _ hx with hm | ⟨y, hy, e⟩
    · rcases StdMap.mem_insert _ _ _ _ hm with e | hm
      · exact Or.inr ⟨(k, v), List.mem_cons_self _ _, by rw [e]⟩
      · exact Or.inl hm
    · exact Or.inr ⟨y, List.mem_cons_of_mem _ hy, e⟩

theorem Settings.performRelinking_noConflict (s : Settings) (subst : QString → QString)
    (h : s.hasConflictingRecord = false) :
    (s.performRelinking subst).hasConflictingRecord = false := by
  rw [Settings.hasConflictingRecord_eq_false_iff] at h ⊢
  intro x hx
  rcases Settings.mem_performRelinkingLoop subst _ _ x hx with hm | ⟨y, hy, e⟩
  · simp [PerPageRecords.empty] at hm
  · rw [e]
    exact h y hy

theorem Settings.applyOperations_noConflict (ops : List Settings.Operation) (s : Settings)
    (h : s.hasConflictingRecord = false) :
    (s.applyOperations ops).hasConflictingRecord = false := by
  induction ops generalizing s with
  | nil => exact h
  | cons op rest ih =>
    unfold Settings.applyOperations
    rw [List.foldl_cons]
    apply ih
    cases op with
    | clear => rfl
    | updatePage id a => exact Settings.updatePage_noConflict s id a h
    | conditionalUpdate id a => exact Settings.conditionalUpdate_noConflict s id a h
    | setLayoutTypeForAllPages L => exact Settings.setLayoutTypeForAllPages_noConflict s L
    | setLayoutTypeFor L pages => exact Settings.setLayoutTypeFor_noConflict pages s L h
    | performRelinking subst => exact Settings.performRelinking_noConflict s subst h

theorem Settings.Reachable.noConflict (s : Settings) (h : s.Reachable) :
    s.hasConflictingRecord = false := by
  obtain ⟨ops, e⟩ := h
  rw [← e]
  exact Settings.applyOperations_noConflict ops Settings.ctor rfl

theorem Settings.getPageRecord_noConflict (s : Settings) (id : ImageId)
    (h : s.hasConflictingRecord = false) :
    (s.getPageRecord id).hasLayoutTypeConflict = false := by
  rw [Settings.hasConflictingRecord_eq_false_iff] at h
  unfold Settings.getPageRecord Settings.getPageRecordLocked
  cases hf : s.m_perPageRecords.find id with
  | none => rfl
  | some b => exact h (id, b) (StdMap.mem_of_find _ id b hf)

/-- C19: in every store state reachable from the empty store through the public
operations, no page is in conflict: `getPageRecord(id).hasLayoutTypeConflict()`
is false for every page id, and so is the conflict test of every stored record
against its combined layout type under the current default. -/
theorem C19_reachable_no_conflict (s : Settings) (h : s.Reachable) (id : ImageId) :
    (s.getPageRecord id).hasLayoutTypeConflict = false ∧
      s.hasConflictingRecord = false :=
  ⟨Settings.getPageRecord_noConflict s id (Settings.Reachable.noConflict s h),
    Settings.Reachable.noConflict s h⟩

/-- Witness for C19: two-page params stored, then the default changed to
SINGLE_PAGE_UNCUT for all pages. -/
theorem C19_reachable_no_conflict_witness :
    ((Settings.ctor.applyOperations
      [Settings.Operation.updatePage ⟨[1], 0⟩ (UpdateAction.ctor.setParams
          ⟨⟨PageLayoutType.TWO_PAGES, 7⟩, 3, AutoManualMode.MODE_MANUAL⟩),
        Settings.Operation.setLayoutTypeForAllPages
          LayoutType.SINGLE_PAGE_UNCUT]).getPageRecord ⟨[1], 0⟩).hasLayoutTypeConflict
      = false :=
  (C19_reachable_no_conflict
    (Settings.ctor.applyOperations
      [Settings.Operation.updatePage ⟨[1], 0⟩ (UpdateAction.ctor.setParams
          ⟨⟨PageLayoutType.TWO_PAGES, 7⟩, 3, AutoManualMode.MODE_MANUAL⟩),
        Settings.Operation.setLayoutTypeForAllPages LayoutType.SINGLE_PAGE_UNCUT])
    ⟨_, rfl⟩ ⟨[1], 0⟩).1

/-! Section: The DONT_TOUCH update and repeated updates -/

theorem Record.update_ctor (r : Record) : r.update UpdateAction.ctor = r := rfl

theorem Settings.resolved_ctor (s : Settings) (id : ImageId)
    (h : s.hasConflictingRecord = false) :
    s.resolved id UpdateAction.ctor = s.getPageRecord id := by
  unfold Settings.resolved
  rw [Record.update_ctor, Settings.getPageRecord_noConflict s id h]
  rfl

theorem Settings.observed_updatePage_ctor (s : Settings) (id k : ImageId)
    (h : s.hasConflictingRecord = false) :
    ((s.updatePage id UpdateAction.ctor).getPageRecord k).observed =
      (s.getPageRecord k).observed := by
  by_cases hk : k = id
  · subst hk
    rw [Settings.getPageRecord_updatePage_self, Settings.resolved_ctor s k h]
    have hd := Settings.getPageRecord_default s k
    generalize s.getPageRecord k = g at hd
    rcases g with ⟨⟨p, lt, pv, ltv⟩, d⟩
    simp only at hd
    subst hd
    cases pv <;> cases ltv <;>
      simp [Record.observed, Record.ofDefault, Record.combinedLayoutType, BaseRecord.ctor,
        BaseRecord.params, BaseRecord.layoutType, BaseRecord.isNull]
  · rw [Settings.getPageRecord_updatePage_other s id k UpdateAction.ctor hk]

theorem Settings.setLayoutTypeFor_observed (pages : List PageId) (s : Settings)
    (L : LayoutType) (h : s.hasConflictingRecord = false) :
    (s.setLayoutTypeFor L pages).m_defaultLayoutType = s.m_defaultLayoutType ∧
      ∀ k, ((s.setLayoutTypeFor L pages).getPageRecord k).observed =
        (s.getPageRecord k).observed := by
  induction pages generalizing s with
  | nil => exact ⟨rfl, fun _ => rfl⟩
  | cons p rest ih =>
    have h1 := Settings.updatePage_noConflict s p.imageId UpdateAction.ctor h
    obtain ⟨ihd, iho⟩ := ih (s.updatePage p.imageId UpdateAction.ctor) h1
    have e : s.setLayoutTypeFor L (p :: rest) =
        (s.updatePage p.imageId UpdateAction.ctor).setLayoutTypeFor L rest := rfl
    rw [e]
    refine ⟨?_, fun k => ?_⟩
    · rw [ihd, Settings.updatePage_default]
    · rw [iho k, Settings.observed_updatePage_ctor s p.imageId k h]

/-- C18: `setLayoutTypeFor`, as coded, is observationally a no-op: in every store
state reachable from the empty store through the public operations, for every
layout type `L` and every set of pages, after `setLayoutTypeFor(L, S)` the
default layout type is the one before, and for every page id (in `S` or not)
`getPageRecord(id)` shows the same `params()`, `layoutType()` and
`combinedLayoutType()` as before; the argument `L` is never used. -/
theorem C18_setLayoutTypeFor_observational_noop (s : Settings) (h : s.Reachable)
    (L : LayoutType) (pages : List PageId) :
    (s.setLayoutTypeFor L pages).defaultLayoutType = s.defaultLayoutType ∧
      (∀ id : ImageId,
        ((s.setLayoutTypeFor L pages).getPageRecord id).observed =
          (s.getPageRecord id).observed) ∧
      (∀ L2 : LayoutType, s.setLayoutTypeFor L2 pages = s.setLayoutTypeFor L pages) := by
  have hs := Settings.setLayoutTypeFor_observed pages s L (Settings.Reachable.noConflict s h)
  exact ⟨hs.1, hs.2, fun _ => rfl⟩

/-- Witness for C18: a store with one layout-type override, and
`setLayoutTypeFor(TWO_PAGES, ...)` called on that page and another one. -/
theorem C18_setLayoutTypeFor_observational_noop_witness :
    ((Settings.ctor.applyOperations
        [Settings.Operation.updatePage ⟨[1], 0⟩
          (UpdateAction.ctor.setLayoutType LayoutType.SINGLE_PAGE_UNCUT)]).setLayoutTypeFor
        LayoutType.TWO_PAGES
        [⟨⟨[1], 0⟩, SubPage.LEFT_PAGE⟩, ⟨⟨[2], 0⟩, SubPage.SINGLE_PAGE⟩]).defaultLayoutType =
      (Settings.ctor.applyOperations
        [Settings.Operation.updatePage ⟨[1], 0⟩
          (UpdateAction.ctor.setLayoutType
            LayoutType.SINGLE_PAGE_UNCUT)]).defaultLayoutType :=
  (C18_setLayoutTypeFor_observational_noop
    (Settings.ctor.applyOperations
        [Settings.Operation.updatePage ⟨[1], 0⟩
          (UpdateAction.ctor.setLayoutType LayoutType.SINGLE_PAGE_UNCUT)])
    ⟨_, rfl⟩ LayoutType.TWO_PAGES
    [⟨⟨[1], 0⟩, SubPage.LEFT_PAGE⟩, ⟨⟨[2], 0⟩, SubPage.SINGLE_PAGE⟩]).1

theorem Record.resolved_update_twice (r : Record) (a : UpdateAction) :
    (if ((if (r.update a).hasLayoutTypeConflict then (r.update a).clearParams
            else r.update a).update a).hasLayoutTypeConflict
      then ((if (r.update a).hasLayoutTypeConflict then (r.update a).clearParams
            else r.update a).update a).clearParams
      else (if (r.update a).hasLayoutTypeConflict then (r.update a).clearParams
            else r.update a).update a) =
      (if (r.update a).hasLayoutTypeConflict then (r.update a).clearParams
        else r.update a) := by
  rcases r with ⟨⟨p, lt, pv, ltv⟩, d⟩
  rcases a with ⟨ap, alt, pa, la⟩
  cases pa <;> cases la <;>
    simp only [Record.update, Record.updateLayoutType, Record.updateParams,
      Record.setLayoutType, Record.clearLayoutType, Record.setParams, Record.clearParams,
      BaseRecord.setLayoutType, BaseRecord.clearLayoutType, BaseRecord.setParams,
      BaseRecord.clearParams] <;>
    split_ifs <;>
    simp_all [Record.hasLayoutTypeConflict, Record.combinedLayoutType,
      BaseRecord.hasLayoutTypeConflict]

theorem Record.resolved_null_from_default (r : Record) (a : UpdateAction)
    (h : (if (r.update a).hasLayoutTypeConflict then (r.update a).clearParams
          else r.update a).isNull = true) :
    (if ((Record.ofDefault r.m_defaultLayoutType).update a).hasLayoutTypeConflict
      then ((Record.ofDefault r.m_defaultLayoutType).update a).clearParams
      else (Record.ofDefault r.m_defaultLayoutType).update a).isNull = true := by
  rcases r with ⟨⟨p, lt, pv, ltv⟩, d⟩
  rcases a with ⟨ap, alt, pa, la⟩
  revert h
  cases pa <;> cases la <;> cases pv <;> cases ltv <;>
    simp only [Record.update, Record.updateLayoutType, Record.updateParams,
      Record.setLayoutType, Record.clearLayoutType, Record.setParams, Record.clearParams,
      Record.ofDefault, BaseRecord.ctor,
      BaseRecord.setLayoutType, BaseRecord.clearLayoutType, BaseRecord.setParams,
      BaseRecord.clearParams] <;>
    intro h <;>
    split_ifs at h ⊢ <;>
    simp_all [Record.hasLayoutTypeConflict, Record.combinedLayoutType,
      BaseRecord.hasLayoutTypeConflict, BaseRecord.isNull]

theorem Settings.resolved_updatePage_self (s : Settings) (id : ImageId) (a : UpdateAction) :
    ((s.updatePage id a).resolved id a).isNull = (s.resolved id a).isNull ∧
      ((s.resolved id a).isNull = false →
        (s.updatePage id a).resolved id a = s.resolved id a) := by
  have hg := Settings.getPageRecord_updatePage_self s id a
  have hd := Settings.getPageRecord_default s id
  cases hn : (s.resolved id a).isNull with
  | true =>
    rw [hn] at hg
    simp only [if_true] at hg
    refine ⟨?_, fun h => by simp at h⟩
    have e : (s.updatePage id a).resolved id a =
        (if ((Record.ofDefault (s.getPageRecord id).m_defaultLayoutType).update
              a).hasLayoutTypeConflict
          then ((Record.ofDefault (s.getPageRecord id).m_defaultLayoutType).update
              a).clearParams
          else (Record.ofDefault (s.getPageRecord id).m_defaultLayoutType).update a) := by
      unfold Settings.resolved
      rw [hg, hd]
    rw [e]
    exact Record.resolved_null_from_default (s.getPageRecord id) a hn
  | false =>
    rw [hn] at hg
    simp only [Bool.false_eq_true, if_false] at hg
    have e : (s.updatePage id a).resolved id a = s.resolved id a := by
      have e1 : (s.updatePage id a).resolved id a =
          (if ((s.resolved id a).update a).hasLayoutTypeConflict
            then ((s.resolved id a).update a).clearParams
            else (s.resolved id a).update a) := by
        show (if (((s.updatePage id a).getPageRecord id).update a).hasLayoutTypeConflict
            then (((s.updatePage id a).getPageRecord id).update a).clearParams
            else ((s.updatePage id a).getPageRecord id).update a) = _
        rw [hg]
      rw [e1]
      exact Record.resolved_update_twice (s.getPageRecord id) a
    exact ⟨by rw [e, hn], fun _ => e⟩

/-- C14: `updatePage` is idempotent: applying `updatePage(id, a)` twice in a row
leaves the same store (map and default layout type) as applying it once, also
when the first application dropped params to resolve a conflict. -/
theorem C14_updatePage_idempotent (s : Settings) (id : ImageId) (a : UpdateAction) :
    (s.updatePage id a).updatePage id a = s.updatePage id a ∧
      ((s.updatePage id a).updatePage id a).m_perPageRecords.entries =
        (s.updatePage id a).m_perPageRecords.entries ∧
      ((s.updatePage id a).updatePage id a).defaultLayoutType =
        (s.updatePage id a).defaultLayoutType := by
  have h : (s.updatePage id a).updatePage id a = s.updatePage id a := by
    apply Settings.ext_of_find
    · rw [Settings.updatePage_default]
    · intro k
      rw [Settings.find_updatePage (s.updatePage id a) id k a]
      split_ifs with hk hn
      · rw [hk, Settings.find_updatePage_self]
        rw [(Settings.resolved_updatePage_self s id a).1] at hn
        rw [if_pos hn]
      · rw [hk, Settings.find_updatePage_self]
        rw [(Settings.resolved_updatePage_self s id a).1] at hn
        rw [if_neg hn, (Settings.resolved_updatePage_self s id a).2 (by simpa using hn)]
      · rfl
  rw [h]
  exact ⟨rfl, rfl, rfl⟩

end page_split
